import Mathlib

/-!
Verification of the labellint core: the COCO schema model and validator
(`formats.py`), the rule suite (`rules.py`) and the scan engine (`core.py`),
shallowly embedded in Lean. Python floats are modelled as rationals, Python
dicts as association lists with insert-overwrite semantics, and fallible
code as `Except`/`Option` values.
-/

/-- A JSON value tree, the output of the syntactic parsing stage
(`json.loads`). Objects are association lists; `json.loads` produces
objects with pairwise distinct keys. Numbers are modelled as rationals. -/
inductive Json where
  | null
  | bool (b : Bool)
  | num (q : ℚ)
  | str (s : String)
  | arr (elems : List Json)
  | obj (fields : List (String × Json))

/-- First-match lookup of a key in a JSON object's field list (Python dict
access on the dict produced by `json.loads`, whose keys are distinct). -/
def objGet (fields : List (String × Json)) (k : String) : Option Json :=
  match fields with
  | [] => none
  | (k', v) :: rest => if k' = k then some v else objGet rest k

/-- Python dict assignment `d[k] = v`: overwrite in place if the key is
present, append otherwise. -/
def pyDictInsert {κ α : Type} [DecidableEq κ] (k : κ) (v : α) :
    List (κ × α) → List (κ × α)
  | [] => [(k, v)]
  | (k', v') :: rest =>
      if k' = k then (k, v) :: rest else (k', v') :: pyDictInsert k v rest

/-- Python dict lookup on an association list built by `pyDictInsert`. -/
def pyDictGet {κ α : Type} [DecidableEq κ] (k : κ) : List (κ × α) → Option α
  | [] => none
  | (k', v) :: rest => if k' = k then some v else pyDictGet k rest

/-- A Python dict comprehension `{f(x).key: f(x).val for x in entries}`:
later entries overwrite earlier ones. -/
def buildDict {κ α : Type} [DecidableEq κ] (entries : List (κ × α)) :
    List (κ × α) :=
  entries.foldl (fun d kv => pyDictInsert kv.1 kv.2 d) []

/-- Auxiliary for `dedupFirst`: drop elements already seen. -/
def dedupFirstAux {α : Type} [DecidableEq α] (seen : List α) : List α → List α
  | [] => []
  | a :: rest =>
      if a ∈ seen then dedupFirstAux seen rest
      else a :: dedupFirstAux (a :: seen) rest

/-- The distinct elements of a list in order of first occurrence: the key
iteration order of a Python `dict`/`Counter` built by insertion. -/
def dedupFirst {α : Type} [DecidableEq α] (l : List α) : List α :=
  dedupFirstAux [] l

/-- One `Counter` increment: `c[k] += 1` with a missing key counting 0. -/
def counterAdd {κ : Type} [DecidableEq κ] (c : List (κ × Nat)) (k : κ) :
    List (κ × Nat) :=
  match pyDictGet k c with
  | some n => pyDictInsert k (n + 1) c
  | none => pyDictInsert k 1 c

/-- Python `collections.Counter(l)`: counts keyed in first-occurrence
order. -/
def pyCounter {κ : Type} [DecidableEq κ] (l : List κ) : List (κ × Nat) :=
  l.foldl counterAdd []

/-- Ordering of strings by Unicode code points, as Python compares `str`. -/
def charListLe : List Char → List Char → Bool
  | [], _ => true
  | _ :: _, [] => false
  | a :: as, b :: bs =>
      if a.val < b.val then true
      else if b.val < a.val then false
      else charListLe as bs

/-- Python `s1 <= s2` on strings. -/
def strLe (a b : String) : Bool := charListLe a.data b.data

/-- Insertion into a code-point-sorted list of strings. -/
def insertSorted (s : String) : List String → List String
  | [] => [s]
  | t :: rest => if strLe s t then s :: t :: rest else t :: insertSorted s rest

/-- Python `sorted` on a list of strings (ascending by code points). -/
def sortStrings (l : List String) : List String := l.foldr insertSorted []

/-- Python `str.lower`, modelled on the ASCII range via `Char.toLower`. -/
def pyLower (s : String) : String := String.mk (s.data.map Char.toLower)

/-- The floor of a rational, computed by floor division of numerator by
denominator. -/
def ratFloor (q : ℚ) : Int := Int.fdiv q.num (q.den : Int)

/-- Python `max(a, b)` on two numbers. -/
def ratMax (a b : ℚ) : ℚ := if b ≤ a then a else b

/-- Round a rational to the nearest integer, ties to even: the rounding of
Python's fixed-point float formatting. -/
def roundHalfEven (q : ℚ) : Int :=
  let f : Int := ratFloor q
  let r : ℚ := q - (f : ℚ)
  if r < 1/2 then f
  else if 1/2 < r then f + 1
  else if f % 2 = 0 then f else f + 1

/-- Left-pad a digit string with zeros to length `d`. -/
def natPad (s : String) (d : Nat) : String :=
  String.mk (List.replicate (d - s.length) '0') ++ s

/-- Python's fixed-point format `f"{q:.df}"`, modelled over rationals. -/
def fmtFixed (q : ℚ) (d : Nat) : String :=
  let scaled : Int := roundHalfEven (q * ((10 : ℚ) ^ d))
  let sign := if scaled < 0 then "-" else ""
  let a := scaled.natAbs
  let base := (10 : Nat) ^ d
  if d = 0 then sign ++ toString a
  else sign ++ toString (a / base) ++ "." ++ natPad (toString (a % base)) d

/-- The `info` block (`COCOInfo` in formats.py): all known fields optional,
unknown fields tolerated and preserved (`extra="allow"`), in field order. -/
structure COCOInfo where
  year : Option Int
  version : Option String
  description : Option String
  contributor : Option String
  url : Option String
  date_created : Option String
  extras : List (String × Json)

/-- A license record (`COCOLicense` in formats.py, `extra="forbid"`). -/
structure COCOLicense where
  id : Int
  name : String
  url : Option String

/-- An image record (`COCOImage` in formats.py): width and height are
validated strictly positive, no unknown fields. -/
structure COCOImage where
  id : Int
  width : Int
  height : Int
  file_name : String
  license : Option Int
  flickr_url : Option String
  coco_url : Option String
  date_captured : Option String

/-- The `segmentation` field of an annotation:
`Union[List[Any], Dict[str, Any]]` — either a polygon list or a
run-length-encoding object, kept as raw JSON. -/
inductive Segmentation where
  | polys (parts : List Json)
  | rle (fields : List (String × Json))

/-- The bounding box `[x, y, width, height]`: validation enforces exactly
four floats, so the validated form is a record of four rationals. -/
structure BBox where
  x : ℚ
  y : ℚ
  w : ℚ
  h : ℚ

/-- An annotation record (`COCOAnnotation` in formats.py): validation
enforces `area ≥ 0`, bbox of length 4 with non-negative width/height, and
`iscrowd ∈ {0, 1}`; no unknown fields. -/
structure COCOAnnotation where
  id : Int
  image_id : Int
  category_id : Int
  segmentation : Segmentation
  area : ℚ
  bbox : BBox
  iscrowd : Int

/-- A category record (`COCOCategory` in formats.py, `extra="forbid"`). -/
structure COCOCategory where
  id : Int
  name : String
  supercategory : Option String

/-- The validated root document (`COCOData` in formats.py): all five
top-level blocks required, no unknown top-level fields. -/
structure COCOData where
  info : COCOInfo
  licenses : List COCOLicense
  images : List COCOImage
  annotations : List COCOAnnotation
  categories : List COCOCategory

/-- rules.py `check_category_case_consistency`: group category names by
lower-cased form; one finding per group with more than one distinct
original spelling, listing the spellings sorted. -/
def check_category_case_consistency (data : COCOData) : List String :=
  let lowerNames := data.categories.map (fun c => pyLower c.name)
  (dedupFirst lowerNames).filterMap (fun lower =>
    let originals := dedupFirst
      ((data.categories.filter (fun c => pyLower c.name = lower)).map
        (fun c => c.name))
    if 1 < originals.length then
      some ("Inconsistent capitalization for '" ++ lower ++ "'. Found: " ++
        String.intercalate ", " (sortStrings originals))
    else none)

/-- rules.py `check_category_duplicate_names`: count categories by exact
name; one finding per name with count above 1. -/
def check_category_duplicate_names (data : COCOData) : List String :=
  (pyCounter (data.categories.map (fun c => c.name))).filterMap (fun p =>
    if 1 < p.2 then
      some ("Duplicate category name '" ++ p.1 ++ "' appears " ++
        toString p.2 ++ " times.")
    else none)

/-- rules.py `check_category_duplicate_ids`: count categories by id; one
finding per id with count above 1. -/
def check_category_duplicate_ids (data : COCOData) : List String :=
  (pyCounter (data.categories.map (fun c => c.id))).filterMap (fun p =>
    if 1 < p.2 then
      some ("Duplicate category ID #" ++ toString p.1 ++ " appears " ++
        toString p.2 ++ " times.")
    else none)

/-- rules.py `check_relation_unmatched_annotations`: flag annotations whose
image_id matches no image id. -/
def check_relation_unmatched_annotations (data : COCOData) : List String :=
  let valid := data.images.map (fun img => img.id)
  data.annotations.filterMap (fun ann =>
    if ann.image_id ∈ valid then none
    else some ("Orphaned annotation (ID " ++ toString ann.id ++
      ") points to a missing image (ID " ++ toString ann.image_id ++ ")."))

/-- rules.py `check_relation_unmatched_category`: flag annotations whose
category_id matches no category id. -/
def check_relation_unmatched_category (data : COCOData) : List String :=
  let valid := data.categories.map (fun c => c.id)
  data.annotations.filterMap (fun ann =>
    if ann.category_id ∈ valid then none
    else some ("Annotation (ID " ++ toString ann.id ++
      ") points to a missing category (ID " ++
      toString ann.category_id ++ ")."))

/-- The finding text of `check_relation_images_without_annotations`. -/
def noAnnMsg (img : COCOImage) : String :=
  "Image '" ++ img.file_name ++ "' (ID " ++ toString img.id ++
  ") has no annotations."

/-- rules.py `check_relation_images_without_annotations`: with a non-empty
annotation list, flag images whose id appears in no annotation; with an
empty annotation list, return nothing. -/
def check_relation_images_without_annotations (data : COCOData) : List String :=
  if data.annotations.isEmpty then []
  else
    let annotated := data.annotations.map (fun ann => ann.image_id)
    data.images.filterMap (fun img =>
      if img.id ∈ annotated then none
      else some (noAnnMsg img))

/-- rules.py `check_geometry_zero_area_bboxes`: flag bboxes with width or
height exactly zero. -/
def check_geometry_zero_area_bboxes (data : COCOData) : List String :=
  data.annotations.filterMap (fun ann =>
    if ann.bbox.w = 0 ∨ ann.bbox.h = 0 then
      some ("Annotation (ID " ++ toString ann.id ++ ") on image (ID " ++
        toString ann.image_id ++ ") has a zero-area bounding box [w=" ++
        fmtFixed ann.bbox.w 1 ++ ", h=" ++ fmtFixed ann.bbox.h 1 ++ "].")
    else none)

/-- The finding text of `check_geometry_bbox_out_of_bounds`. -/
def oobMsg (ann : COCOAnnotation) (img : COCOImage) : String :=
  "Annotation (ID " ++ toString ann.id ++ ") on image '" ++ img.file_name ++
  "' (ID " ++ toString ann.image_id ++ ") is out of bounds. Bbox [x2=" ++
  fmtFixed (ann.bbox.x + ann.bbox.w) 1 ++ ", y2=" ++
  fmtFixed (ann.bbox.y + ann.bbox.h) 1 ++ "] vs. Image [w=" ++
  toString img.width ++ ", h=" ++ toString img.height ++ "]."

/-- rules.py `check_geometry_bbox_out_of_bounds`: resolve each annotation's
image through the `images_by_id` dict (silently skipping unresolved ids) and
flag when the bbox leaves the image canvas. -/
def check_geometry_bbox_out_of_bounds (data : COCOData) : List String :=
  let images_by_id := buildDict (data.images.map (fun img => (img.id, img)))
  data.annotations.filterMap (fun ann =>
    match pyDictGet ann.image_id images_by_id with
    | none => none
    | some img =>
        if ann.bbox.x < 0 ∨ ann.bbox.y < 0 ∨
            (img.width : ℚ) < ann.bbox.x + ann.bbox.w ∨
            (img.height : ℚ) < ann.bbox.y + ann.bbox.h then
          some (oobMsg ann img)
        else none)

/-- The guard of `check_attribute_area_bbox_mismatch`: Python
`ann.segmentation and isinstance(ann.segmentation, list) and
len(ann.segmentation) > 0` — true exactly for a non-empty list. -/
def segSkipsAreaCheck : Segmentation → Bool
  | .polys parts => !parts.isEmpty
  | .rle _ => false

/-- `np.isclose(a, b, rtol=1e-3)` with the default `atol=1e-8`:
`|a - b| <= atol + rtol * |b|`. -/
def npIsClose (a b : ℚ) : Bool :=
  decide (|a - b| ≤ 1 / 100000000 + 1 / 1000 * |b|)

/-- The finding text of `check_attribute_area_bbox_mismatch`. -/
def mismatchMsg (ann : COCOAnnotation) : String :=
  "Annotation (ID " ++ toString ann.id ++
  ") has a mismatched area. Bbox area is " ++
  fmtFixed (ann.bbox.w * ann.bbox.h) 2 ++ ", but 'area' attribute is " ++
  fmtFixed ann.area 2 ++ "."

/-- rules.py `check_attribute_area_bbox_mismatch`: skip annotations whose
segmentation is a non-empty list; otherwise flag when bbox area and the
area attribute are not close. -/
def check_attribute_area_bbox_mismatch (data : COCOData) : List String :=
  data.annotations.filterMap (fun ann =>
    if segSkipsAreaCheck ann.segmentation then none
    else if npIsClose (ann.bbox.w * ann.bbox.h) ann.area then none
    else some (mismatchMsg ann))

/-- Insertion into an ascending list of rationals. -/
def insertRat (x : ℚ) : List ℚ → List ℚ
  | [] => [x]
  | y :: rest => if x ≤ y then x :: y :: rest else y :: insertRat x rest

/-- Ascending sort of a list of rationals (`np.sort`). -/
def sortRats (l : List ℚ) : List ℚ := l.foldr insertRat []

/-- `np.percentile` with the default linear interpolation, on an already
sorted list. -/
def percentileLin (sortedVals : List ℚ) (p : ℚ) : ℚ :=
  match sortedVals with
  | [] => 0
  | _ :: _ =>
      let n := sortedVals.length
      let pos : ℚ := ((n : ℚ) - 1) * p / 100
      let i : Int := ratFloor pos
      let fr : ℚ := pos - (i : ℚ)
      let lo := sortedVals.getD i.toNat 0
      let hi := sortedVals.getD (i.toNat + 1) lo
      lo + fr * (hi - lo)

/-- The finding text of `check_statistical_bbox_aspect_ratio_outliers`. -/
def aspectMsg (ann : COCOAnnotation) (ar lower upper : ℚ) : String :=
  "Annotation (ID " ++ toString ann.id ++ ") on image (ID " ++
  toString ann.image_id ++ ") has an outlier aspect ratio of " ++
  fmtFixed ar 2 ++ ". Typical range: [" ++ fmtFixed lower 2 ++ " - " ++
  fmtFixed upper 2 ++ "]."

/-- rules.py `check_statistical_bbox_aspect_ratio_outliers`: IQR-based
outlier detection on the aspect ratios of annotations with positive width
and height. -/
def check_statistical_bbox_aspect_ratio_outliers (data : COCOData) :
    List String :=
  if data.annotations.isEmpty then []
  else
    let aspect_ratios := data.annotations.filterMap (fun ann =>
      if 0 < ann.bbox.w ∧ 0 < ann.bbox.h then
        some (ann.bbox.w / ann.bbox.h)
      else none)
    if aspect_ratios.isEmpty then []
    else
      let sortedRatios := sortRats aspect_ratios
      let q1 := percentileLin sortedRatios 25
      let q3 := percentileLin sortedRatios 75
      let iqr := q3 - q1
      let lower_bound := q1 - 3 / 2 * iqr
      let upper_bound := q3 + 3 / 2 * iqr
      data.annotations.filterMap (fun ann =>
        if 0 < ann.bbox.w ∧ 0 < ann.bbox.h then
          let ar := ann.bbox.w / ann.bbox.h
          if ¬ (lower_bound ≤ ar ∧ ar ≤ upper_bound) then
            some (aspectMsg ann ar lower_bound upper_bound)
          else none
        else none)

/-- The finding text of `check_statistical_class_distribution_imbalance`. -/
def imbalanceMsg (name : String) (count : Nat) : String :=
  "Severe class imbalance: Category '" ++ name ++ "' has only " ++
  toString count ++ " annotations."

/-- rules.py `check_statistical_class_distribution_imbalance`: skipped below
50 annotations; otherwise flag counted categories below
`max(10, total * 0.001)` that resolve in the `categories_by_id` dict. -/
def check_statistical_class_distribution_imbalance (data : COCOData) :
    List String :=
  let total := data.annotations.length
  if total < 50 then []
  else
    let category_counts := pyCounter (data.annotations.map
      (fun ann => ann.category_id))
    let categories_by_id := buildDict (data.categories.map
      (fun c => (c.id, c)))
    let threshold : ℚ := ratMax 10 ((total : ℚ) * (1 / 1000))
    category_counts.filterMap (fun p =>
      if (p.2 : ℚ) < threshold then
        match pyDictGet p.1 categories_by_id with
        | some cat => some (imbalanceMsg cat.name p.2)
        | none => none
      else none)

/-- The engine's synthetic finding text for a rule that raised
(core.py line 142). -/
def ruleExecutionErrorMsg : String :=
  "Rule execution failed with an internal error."

/-- The outcome of invoking one rule: a finding list, or an exception. -/
abbrev RuleOutcome := Except String (List String)

/-- A rule as the engine sees it: its `__name__` and its body. -/
abbrev NamedRule := String × (COCOData → RuleOutcome)

/-- The engine's accumulation state: the `results` dict and the running
`total_findings` (core.py lines 122-123). -/
structure FindState where
  findings : List (String × List String)
  total_findings : Nat

/-- One iteration of the rule-execution loop of run_scan (core.py lines
124-144): record non-empty findings under the rule's name; convert an
exception into one synthetic finding under `<name>_execution_error`. -/
def runRuleStep (data : COCOData) (s : FindState) (rule : NamedRule) :
    FindState :=
  match rule.2 data with
  | .ok fs =>
      if fs.isEmpty then s
      else { findings := pyDictInsert rule.1 fs s.findings,
             total_findings := s.total_findings + fs.length }
  | .error _ =>
      { findings := pyDictInsert (rule.1 ++ "_execution_error")
          [ruleExecutionErrorMsg] s.findings,
        total_findings := s.total_findings + 1 }

/-- The full rule-execution loop over a rule list. -/
def runScanAux (data : COCOData) (rules : List NamedRule) (s : FindState) :
    FindState :=
  rules.foldl (runRuleStep data) s

/-- The `ScanResult` contract of core.py. -/
structure ScanResult where
  data : COCOData
  findings : List (String × List String)
  total_findings : Nat

/-- run_scan's stages 3-4 for an arbitrary rule list. -/
def runScanWith (rules : List NamedRule) (data : COCOData) : ScanResult :=
  let final := runScanAux data rules { findings := [], total_findings := 0 }
  { data := data, findings := final.findings,
    total_findings := final.total_findings }

/-- rules.py `get_all_rules`: the name-sorted registry of the 11 rules,
each a total function wrapped as a never-raising engine rule. -/
def get_all_rules : List NamedRule := [
  ("check_attribute_area_bbox_mismatch",
    fun d => .ok (check_attribute_area_bbox_mismatch d)),
  ("check_category_case_consistency",
    fun d => .ok (check_category_case_consistency d)),
  ("check_category_duplicate_ids",
    fun d => .ok (check_category_duplicate_ids d)),
  ("check_category_duplicate_names",
    fun d => .ok (check_category_duplicate_names d)),
  ("check_geometry_bbox_out_of_bounds",
    fun d => .ok (check_geometry_bbox_out_of_bounds d)),
  ("check_geometry_zero_area_bboxes",
    fun d => .ok (check_geometry_zero_area_bboxes d)),
  ("check_relation_images_without_annotations",
    fun d => .ok (check_relation_images_without_annotations d)),
  ("check_relation_unmatched_annotations",
    fun d => .ok (check_relation_unmatched_annotations d)),
  ("check_relation_unmatched_category",
    fun d => .ok (check_relation_unmatched_category d)),
  ("check_statistical_bbox_aspect_ratio_outliers",
    fun d => .ok (check_statistical_bbox_aspect_ratio_outliers d)),
  ("check_statistical_class_distribution_imbalance",
    fun d => .ok (check_statistical_class_distribution_imbalance d))]

/-- core.py run_scan, stages 2-4: execute the discovered registry against a
validated document and aggregate. -/
def run_scan (data : COCOData) : ScanResult := runScanWith get_all_rules data

/-- Pydantic lax coercion of a JSON value to an `int` field: a number
without fractional part. -/
def asInt : Json → Option Int
  | .num q => if q.den = 1 then some q.num else none
  | _ => none

/-- Pydantic coercion of a JSON value to a `float` field. -/
def asRat : Json → Option ℚ
  | .num q => some q
  | _ => none

/-- Pydantic validation of a JSON value against a `str` field. -/
def asStr : Json → Option String
  | .str s => some s
  | _ => none

/-- An `Optional[...] = None` pydantic field: missing or null yields the
default `none`; a present value must validate. -/
def optField {α : Type} (f : Json → Option α)
    (fields : List (String × Json)) (k : String) : Option (Option α) :=
  match objGet fields k with
  | none => some none
  | some .null => some none
  | some j => (f j).map some

/-- A required pydantic field: missing is a validation error. -/
def reqField {α : Type} (f : Json → Option α)
    (fields : List (String × Json)) (k : String) : Option α :=
  (objGet fields k).bind f

/-- The declared field names of `COCOInfo`. -/
def infoKnownKeys : List String :=
  ["year", "version", "description", "contributor", "url", "date_created"]

/-- Validation of the `info` block (`COCOInfo`, `extra="allow"`): all known
fields optional; unknown fields are kept, in order, as extras. -/
def parseInfo (j : Json) : Option COCOInfo :=
  match j with
  | .obj fields =>
      (optField asInt fields "year").bind fun year =>
      (optField asStr fields "version").bind fun version =>
      (optField asStr fields "description").bind fun description =>
      (optField asStr fields "contributor").bind fun contributor =>
      (optField asStr fields "url").bind fun url =>
      (optField asStr fields "date_created").bind fun date_created =>
      some ⟨year, version, description, contributor, url, date_created,
        fields.filter (fun p => p.1 ∉ infoKnownKeys)⟩
  | _ => none

/-- The declared field names of `COCOLicense`. -/
def licenseKeys : List String := ["id", "name", "url"]

/-- Validation of a license record (`extra="forbid"`). -/
def parseLicense (j : Json) : Option COCOLicense :=
  match j with
  | .obj fields =>
      if fields.all (fun p => p.1 ∈ licenseKeys) then
        (reqField asInt fields "id").bind fun id =>
        (reqField asStr fields "name").bind fun name =>
        (optField asStr fields "url").bind fun url =>
        some ⟨id, name, url⟩
      else none
  | _ => none

/-- The declared field names of `COCOImage`. -/
def imageKeys : List String :=
  ["id", "width", "height", "file_name", "license", "flickr_url",
   "coco_url", "date_captured"]

/-- Validation of an image record: `width` and `height` carry `gt=0`
constraints; `extra="forbid"`. -/
def parseImage (j : Json) : Option COCOImage :=
  match j with
  | .obj fields =>
      if fields.all (fun p => p.1 ∈ imageKeys) then
        (reqField asInt fields "id").bind fun id =>
        (reqField asInt fields "width").bind fun width =>
        (reqField asInt fields "height").bind fun height =>
        (reqField asStr fields "file_name").bind fun file_name =>
        (optField asInt fields "license").bind fun license =>
        (optField asStr fields "flickr_url").bind fun flickr_url =>
        (optField asStr fields "coco_url").bind fun coco_url =>
        (optField asStr fields "date_captured").bind fun date_captured =>
        if 0 < width ∧ 0 < height then
          some ⟨id, width, height, file_name, license, flickr_url,
            coco_url, date_captured⟩
        else none
      else none
  | _ => none

/-- Validation of the `segmentation` field
(`Union[List[Any], Dict[str, Any]] = []`): a missing field takes the empty
list default; a list or an object is accepted as is. -/
def parseSeg : Option Json → Option Segmentation
  | none => some (.polys [])
  | some (.arr xs) => some (.polys xs)
  | some (.obj fs) => some (.rle fs)
  | some _ => none

/-- Validation of the `bbox` field: a list of exactly four numbers whose
width and height are non-negative (the `bbox_must_have_positive_dimensions`
validator of formats.py). -/
def parseBBox (j : Json) : Option BBox :=
  match j with
  | .arr [jx, jy, jw, jh] =>
      (asRat jx).bind fun x =>
      (asRat jy).bind fun y =>
      (asRat jw).bind fun w =>
      (asRat jh).bind fun h =>
      if 0 ≤ w ∧ 0 ≤ h then some ⟨x, y, w, h⟩ else none
  | _ => none

/-- The declared field names of `COCOAnnotation`. -/
def annKeys : List String :=
  ["id", "image_id", "category_id", "segmentation", "area", "bbox",
   "iscrowd"]

/-- Validation of an annotation record: `area ≥ 0`, `iscrowd ∈ {0, 1}`,
bbox as in `parseBBox`; `extra="forbid"`. -/
def parseAnn (j : Json) : Option COCOAnnotation :=
  match j with
  | .obj fields =>
      if fields.all (fun p => p.1 ∈ annKeys) then
        (reqField asInt fields "id").bind fun id =>
        (reqField asInt fields "image_id").bind fun image_id =>
        (reqField asInt fields "category_id").bind fun category_id =>
        (parseSeg (objGet fields "segmentation")).bind fun segmentation =>
        (reqField asRat fields "area").bind fun area =>
        (reqField parseBBox fields "bbox").bind fun bbox =>
        (reqField asInt fields "iscrowd").bind fun iscrowd =>
        if 0 ≤ area ∧ 0 ≤ iscrowd ∧ iscrowd ≤ 1 then
          some ⟨id, image_id, category_id, segmentation, area, bbox,
            iscrowd⟩
        else none
      else none
  | _ => none

/-- The declared field names of `COCOCategory`. -/
def categoryKeys : List String := ["id", "name", "supercategory"]

/-- Validation of a category record (`extra="forbid"`). -/
def parseCategory (j : Json) : Option COCOCategory :=
  match j with
  | .obj fields =>
      if fields.all (fun p => p.1 ∈ categoryKeys) then
        (reqField asInt fields "id").bind fun id =>
        (reqField asStr fields "name").bind fun name =>
        (optField asStr fields "supercategory").bind fun supercategory =>
        some ⟨id, name, supercategory⟩
      else none
  | _ => none

/-- Validation of a JSON array field against a list of records. -/
def parseList {α : Type} (f : Json → Option α) : Json → Option (List α)
  | .arr xs => xs.mapM f
  | _ => none

/-- The declared top-level field names of `COCOData`. -/
def cocoKeys : List String :=
  ["info", "licenses", "images", "annotations", "categories"]

/-- Validation of the root document: the five required blocks, and no
unknown top-level fields (`extra="forbid"` on `COCOData`); a non-object
input fails outright. -/
def parseCOCOData (j : Json) : Option COCOData :=
  match j with
  | .obj fields =>
      if fields.all (fun p => p.1 ∈ cocoKeys) then
        (reqField parseInfo fields "info").bind fun info =>
        (reqField (parseList parseLicense) fields "licenses").bind
          fun licenses =>
        (reqField (parseList parseImage) fields "images").bind fun images =>
        (reqField (parseList parseAnn) fields "annotations").bind
          fun annotations =>
        (reqField (parseList parseCategory) fields "categories").bind
          fun categories =>
        some ⟨info, licenses, images, annotations, categories⟩
      else none
  | _ => none

/-- The error taxonomy of formats.py: `FileAccessError` and
`InvalidFormatError`, both subclasses of `ParseError`. -/
inductive ParseErr where
  | fileAccess (msg : String)
  | invalidFormat (msg : String)

/-- Stage 3 of parse_coco: pydantic validation of the decoded JSON value; a
`ValidationError` (including the one a non-dict input raises) is re-raised
as `InvalidFormatError`. -/
def validateCOCO (j : Json) : Except ParseErr COCOData :=
  match parseCOCOData j with
  | some d => .ok d
  | none => .error (.invalidFormat "Data validation failed")

/-- Stages 2-3 of parse_coco on the result of reading the file's text: a
JSON syntax error becomes an `InvalidFormatError`; decoded JSON goes to
schema validation. -/
def parse_coco (decoded : Except String Json) : Except ParseErr COCOData :=
  match decoded with
  | .error msg => .error (.invalidFormat msg)
  | .ok j => validateCOCO j

/-- Whether a JSON value is an object. -/
def Json.isObjB : Json → Bool
  | .obj _ => true
  | _ => false

/-- Serialization of an `Optional` field back to JSON. -/
def optJson {α : Type} (f : α → Json) : Option α → Json
  | none => .null
  | some a => f a

/-- Serialization of an integer field back to JSON. -/
def intJson (i : Int) : Json := .num (i : ℚ)

/-- Serialization of a string field back to JSON. -/
def strJson (s : String) : Json := .str s

/-- Modelled from the spec: "serializing it back to raw JSON honoring the
schema" — the info block, its known fields first and its preserved extra
fields after them. -/
def serializeInfo (i : COCOInfo) : Json :=
  .obj ([("year", optJson intJson i.year),
         ("version", optJson strJson i.version),
         ("description", optJson strJson i.description),
         ("contributor", optJson strJson i.contributor),
         ("url", optJson strJson i.url),
         ("date_created", optJson strJson i.date_created)] ++ i.extras)

/-- Modelled from the spec: schema-honoring serialization of a license. -/
def serializeLicense (l : COCOLicense) : Json :=
  .obj [("id", intJson l.id), ("name", strJson l.name),
        ("url", optJson strJson l.url)]

/-- Modelled from the spec: schema-honoring serialization of an image. -/
def serializeImage (img : COCOImage) : Json :=
  .obj [("id", intJson img.id), ("width", intJson img.width),
        ("height", intJson img.height),
        ("file_name", strJson img.file_name),
        ("license", optJson intJson img.license),
        ("flickr_url", optJson strJson img.flickr_url),
        ("coco_url", optJson strJson img.coco_url),
        ("date_captured", optJson strJson img.date_captured)]

/-- Serialization of a segmentation back to its raw JSON form. -/
def serializeSeg : Segmentation → Json
  | .polys xs => .arr xs
  | .rle fs => .obj fs

/-- Serialization of a bbox back to its four-element list. -/
def serializeBBox (b : BBox) : Json :=
  .arr [.num b.x, .num b.y, .num b.w, .num b.h]

/-- Modelled from the spec: schema-honoring serialization of an
annotation. -/
def serializeAnn (a : COCOAnnotation) : Json :=
  .obj [("id", intJson a.id), ("image_id", intJson a.image_id),
        ("category_id", intJson a.category_id),
        ("segmentation", serializeSeg a.segmentation),
        ("area", .num a.area), ("bbox", serializeBBox a.bbox),
        ("iscrowd", intJson a.iscrowd)]

/-- Modelled from the spec: schema-honoring serialization of a category. -/
def serializeCategory (c : COCOCategory) : Json :=
  .obj [("id", intJson c.id), ("name", strJson c.name),
        ("supercategory", optJson strJson c.supercategory)]

/-- Modelled from the spec: schema-honoring serialization of a validated
document back to raw JSON. -/
def serializeDoc (d : COCOData) : Json :=
  .obj [("info", serializeInfo d.info),
        ("licenses", .arr (d.licenses.map serializeLicense)),
        ("images", .arr (d.images.map serializeImage)),
        ("annotations", .arr (d.annotations.map serializeAnn)),
        ("categories", .arr (d.categories.map serializeCategory))]

/-- Whether a segmentation value is non-empty (a non-empty polygon list or
a non-empty run-length-encoding object). -/
def segNonemptyB : Segmentation → Bool
  | .polys parts => !parts.isEmpty
  | .rle fs => !fs.isEmpty

/-- Claim C2 as stated: the area/bbox rule produces no finding for any
annotation with non-empty segmentation (list or RLE object), and flags an
empty-segmentation annotation exactly when bbox area and declared area
differ by more than `atol + 1e-3 * |area|`. -/
def C2Claim (data : COCOData) : Prop :=
  (∀ ann ∈ data.annotations, segNonemptyB ann.segmentation = true →
    mismatchMsg ann ∉ check_attribute_area_bbox_mismatch data) ∧
  (∀ ann ∈ data.annotations, segNonemptyB ann.segmentation = false →
    (mismatchMsg ann ∈ check_attribute_area_bbox_mismatch data ↔
      1 / 100000000 + 1 / 1000 * |ann.area| <
        |ann.bbox.w * ann.bbox.h - ann.area|))

/-- Claim C5 as stated: below 50 annotations the imbalance rule is silent;
from 50 on it flags exactly the categories (with a matching record) whose
annotation count is strictly below `max(10, 0.001 * total)`. -/
def C5Claim (data : COCOData) : Prop :=
  (data.annotations.length < 50 →
    check_statistical_class_distribution_imbalance data = []) ∧
  (50 ≤ data.annotations.length →
    ∀ cat ∈ data.categories,
      (imbalanceMsg cat.name
          ((data.annotations.map (fun a => a.category_id)).count cat.id) ∈
            check_statistical_class_distribution_imbalance data ↔
        (((data.annotations.map (fun a => a.category_id)).count cat.id : ℚ) <
          ratMax 10 ((data.annotations.length : ℚ) * (1 / 1000)))))

/-- An empty but valid info block. -/
def emptyInfo : COCOInfo := ⟨none, none, none, none, none, none, []⟩

/-- An empty but valid document. -/
def wData : COCOData := ⟨emptyInfo, [], [], [], []⟩

/-- An annotation with a non-empty run-length-encoding segmentation and a
declared area far from its bbox area. -/
def cexAnnRLE : COCOAnnotation :=
  ⟨1, 1, 1, .rle [("counts", .str "ab")], 100, ⟨0, 0, 2, 2⟩, 1⟩

/-- The counterexample document for claim C2: its only annotation has a
non-empty RLE segmentation. -/
def cexDocRLE : COCOData := ⟨emptyInfo, [], [], [cexAnnRLE], []⟩

/-- An annotation of category 1 for the claim C5 counterexample. -/
def imbAnn : COCOAnnotation := ⟨1, 1, 1, .polys [], 1, ⟨0, 0, 1, 1⟩, 0⟩

/-- The counterexample document for claim C5: 50 annotations, all of
category 1, and a category record (id 2) with zero annotations. -/
def imbDoc : COCOData :=
  ⟨emptyInfo, [], [], List.replicate 50 imbAnn,
   [⟨1, "cat", none⟩, ⟨2, "dog", none⟩]⟩

/-- A small schema-valid raw document, with one unknown field inside its
info block. -/
def j0 : Json :=
  .obj [("info", .obj [("year", .num 2024), ("maintainer", .str "sun")]),
        ("licenses", .arr [.obj [("id", .num 1), ("name", .str "MIT")]]),
        ("images", .arr [.obj [("id", .num 101), ("width", .num 800),
          ("height", .num 600), ("file_name", .str "a.jpg")]]),
        ("annotations", .arr [.obj [("id", .num 7), ("image_id", .num 101),
          ("category_id", .num 1), ("area", .num 2500),
          ("bbox", .arr [.num 10, .num 10, .num 50, .num 50]),
          ("iscrowd", .num 0)]]),
        ("categories", .arr [.obj [("id", .num 1), ("name", .str "cat")]])]

/-- The document `j0` validates to. -/
def doc0 : COCOData :=
  ⟨⟨some 2024, none, none, none, none, none, [("maintainer", .str "sun")]⟩,
   [⟨1, "MIT", none⟩],
   [⟨101, 800, 600, "a.jpg", none, none, none, none⟩],
   [⟨7, 101, 1, .polys [], 2500, ⟨10, 10, 50, 50⟩, 0⟩],
   [⟨1, "cat", none⟩]⟩

/-- The field list of an annotation record whose bbox has a negative
width. -/
def negBBoxFields : List (String × Json) :=
  [("id", .num 1), ("image_id", .num 1), ("category_id", .num 1),
   ("area", .num 4), ("bbox", .arr [.num 0, .num 0, .num (-2), .num 2]),
   ("iscrowd", .num 0)]

/-- The entries run_scan's loop records for a list of rules none of which
raises: the non-empty finding lists, keyed by rule name, in rule order. -/
def okFindings (data : COCOData) (rules : List NamedRule) :
    List (String × List String) :=
  rules.filterMap (fun r =>
    match r.2 data with
    | .ok l => if l.isEmpty then none else some (r.1, l)
    | .error _ => none)

theorem pyDictGet_insert {κ α : Type} [DecidableEq κ] (k k' : κ) (v : α)
    (c : List (κ × α)) :
    pyDictGet k (pyDictInsert k' v c) =
      if k' = k then some v else pyDictGet k c := by
  induction c with
  | nil => simp [pyDictInsert, pyDictGet]
  | cons hd tl ih =>
      obtain ⟨k₀, v₀⟩ := hd
      by_cases h₀ : k₀ = k'
      · subst h₀
        simp only [pyDictInsert, if_pos rfl, pyDictGet]
        by_cases hk : k₀ = k <;> simp [hk]
      · simp only [pyDictInsert, if_neg h₀, pyDictGet]
        by_cases hk : k₀ = k
        · subst hk
          have : ¬ k' = k₀ := fun h => h₀ h.symm
          simp [this]
        · simp [hk, ih]

theorem pyDictInsert_fresh {κ α : Type} [DecidableEq κ] (k : κ) (v : α)
    (c : List (κ × α)) (h : k ∉ c.map Prod.fst) :
    pyDictInsert k v c = c ++ [(k, v)] := by
  induction c with
  | nil => simp [pyDictInsert]
  | cons hd tl ih =>
      simp only [List.map_cons, List.mem_cons] at h
      push_neg at h
      simp only [pyDictInsert]
      rw [if_neg (fun he => h.1 he.symm), ih h.2]
      simp

theorem pyDictInsert_map_fst {κ α : Type} [DecidableEq κ] (k : κ) (v : α)
    (c : List (κ × α)) :
    (pyDictInsert k v c).map Prod.fst =
      if (pyDictGet k c).isSome then c.map Prod.fst
      else c.map Prod.fst ++ [k] := by
  induction c with
  | nil => simp [pyDictInsert, pyDictGet]
  | cons hd tl ih =>
      obtain ⟨k₀, v₀⟩ := hd
      simp only [pyDictInsert, pyDictGet]
      by_cases h₀ : k₀ = k
      · simp [h₀]
      · simp only [if_neg h₀, List.map_cons, ih]
        by_cases hs : (pyDictGet k tl).isSome <;> simp [hs]

theorem pyDictGet_isSome_iff_mem {κ α : Type} [DecidableEq κ] (k : κ)
    (c : List (κ × α)) :
    (pyDictGet k c).isSome = true ↔ k ∈ c.map Prod.fst := by
  induction c with
  | nil => simp [pyDictGet]
  | cons hd tl ih =>
      obtain ⟨k₀, v₀⟩ := hd
      simp only [pyDictGet, List.map_cons, List.mem_cons]
      by_cases h₀ : k₀ = k
      · simp [h₀]
      · simp only [if_neg h₀, ih]
        constructor
        · exact fun h => Or.inr h
        · rintro (h | h)
          · exact absurd h.symm h₀
          · exact h

theorem counterAdd_get {κ : Type} [DecidableEq κ] (c : List (κ × Nat))
    (a k : κ) :
    pyDictGet k (counterAdd c a) =
      if a = k then some ((pyDictGet a c).getD 0 + 1) else pyDictGet k c := by
  unfold counterAdd
  cases h : pyDictGet a c with
  | some n => rw [pyDictGet_insert]; simp [h]
  | none => rw [pyDictGet_insert]; simp [h]

theorem counterAdd_keys {κ : Type} [DecidableEq κ] (c : List (κ × Nat))
    (a : κ) :
    (counterAdd c a).map Prod.fst =
      if (pyDictGet a c).isSome then c.map Prod.fst
      else c.map Prod.fst ++ [a] := by
  unfold counterAdd
  cases h : pyDictGet a c <;> simp [pyDictInsert_map_fst, h]

theorem dedupFirstAux_congr {α : Type} [DecidableEq α] :
    ∀ (l : List α) (s₁ s₂ : List α), (∀ x, x ∈ s₁ ↔ x ∈ s₂) →
      dedupFirstAux s₁ l = dedupFirstAux s₂ l := by
  intro l
  induction l with
  | nil => intro s₁ s₂ _; rfl
  | cons a l ih =>
      intro s₁ s₂ hs
      by_cases h : a ∈ s₁
      · simp [dedupFirstAux, h, (hs a).mp h, ih s₁ s₂ hs]
      · have h₂ : a ∉ s₂ := fun hx => h ((hs a).mpr hx)
        simp only [dedupFirstAux, if_neg h, if_neg h₂]
        rw [ih (a :: s₁) (a :: s₂) (by intro x; simp [hs x])]

theorem dedupFirstAux_mem {α : Type} [DecidableEq α] :
    ∀ (l : List α) (seen : List α) (x : α),
      x ∈ dedupFirstAux seen l ↔ x ∈ l ∧ x ∉ seen := by
  intro l
  induction l with
  | nil => intro seen x; simp [dedupFirstAux]
  | cons a l ih =>
      intro seen x
      by_cases h : a ∈ seen
      · simp only [dedupFirstAux, if_pos h, ih, List.mem_cons]
        constructor
        · exact fun ⟨hl, hn⟩ => ⟨Or.inr hl, hn⟩
        · rintro ⟨ha | hl, hn⟩
          · exact absurd (ha ▸ h) hn
          · exact ⟨hl, hn⟩
      · simp only [dedupFirstAux, if_neg h, List.mem_cons, ih]
        constructor
        · rintro (rfl | ⟨hl, hn⟩)
          · exact ⟨Or.inl rfl, h⟩
          · push_neg at hn
            exact ⟨Or.inr hl, hn.2⟩
        · rintro ⟨rfl | hl, hn⟩
          · exact Or.inl rfl
          · by_cases hxa : x = a
            · exact Or.inl hxa
            · exact Or.inr ⟨hl, by simp [hxa, hn]⟩

theorem dedupFirstAux_nodup {α : Type} [DecidableEq α] :
    ∀ (l : List α) (seen : List α), (dedupFirstAux seen l).Nodup := by
  intro l
  induction l with
  | nil => intro seen; simp [dedupFirstAux]
  | cons a l ih =>
      intro seen
      by_cases h : a ∈ seen
      · simpa [dedupFirstAux, h] using ih seen
      · simp only [dedupFirstAux, if_neg h, List.nodup_cons]
        refine ⟨fun hmem => ?_, ih (a :: seen)⟩
        have := (dedupFirstAux_mem l (a :: seen) a).mp hmem
        exact this.2 (List.mem_cons_self a seen)

theorem dedupFirst_mem {α : Type} [DecidableEq α] (l : List α) (x : α) :
    x ∈ dedupFirst l ↔ x ∈ l := by
  simp [dedupFirst, dedupFirstAux_mem]

theorem dedupFirst_nodup {α : Type} [DecidableEq α] (l : List α) :
    (dedupFirst l).Nodup := dedupFirstAux_nodup l []

theorem foldl_counterAdd_keys {κ : Type} [DecidableEq κ] :
    ∀ (l : List κ) (c : List (κ × Nat)),
      (l.foldl counterAdd c).map Prod.fst =
        c.map Prod.fst ++ dedupFirstAux (c.map Prod.fst) l := by
  intro l
  induction l with
  | nil => intro c; simp [dedupFirstAux]
  | cons a l ih =>
      intro c
      simp only [List.foldl_cons, ih, counterAdd_keys]
      by_cases h : (pyDictGet a c).isSome
      · have hm : a ∈ c.map Prod.fst := (pyDictGet_isSome_iff_mem a c).mp h
        simp [h, dedupFirstAux, hm]
      · have hm : a ∉ c.map Prod.fst :=
          fun hx => h ((pyDictGet_isSome_iff_mem a c).mpr hx)
        simp only [if_neg h, dedupFirstAux, if_neg hm]
        rw [dedupFirstAux_congr l (c.map Prod.fst ++ [a]) (a :: c.map Prod.fst)
          (by intro x; simp [or_comm])]
        simp

theorem foldl_counterAdd_get {κ : Type} [DecidableEq κ] :
    ∀ (l : List κ) (c : List (κ × Nat)) (k : κ),
      pyDictGet k (l.foldl counterAdd c) =
        if (pyDictGet k c).isSome ∨ k ∈ l then
          some ((pyDictGet k c).getD 0 + l.count k)
        else none := by
  intro l
  induction l with
  | nil => intro c k; cases h : pyDictGet k c <;> simp [h]
  | cons a l ih =>
      intro c k
      simp only [List.foldl_cons, ih, counterAdd_get]
      by_cases hak : a = k
      · subst hak
        cases h : pyDictGet a c with
        | some n =>
            simp [h, List.count_cons, Nat.add_comm, Nat.add_assoc,
              Nat.add_left_comm]
        | none =>
            simp [h, List.count_cons, Nat.add_comm]
      · have hka : ¬ (k = a) := fun hx => hak hx.symm
        cases h : pyDictGet k c with
        | some n =>
            simp [if_neg hak, h, List.count_cons, hka, List.mem_cons]
        | none =>
            simp [if_neg hak, h, List.count_cons, hka, List.mem_cons]

theorem assoc_eq_of_keys_get {κ α : Type} [DecidableEq κ] :
    ∀ (c₁ c₂ : List (κ × α)), c₁.map Prod.fst = c₂.map Prod.fst →
      (c₁.map Prod.fst).Nodup →
      (∀ k, pyDictGet k c₁ = pyDictGet k c₂) → c₁ = c₂ := by
  intro c₁
  induction c₁ with
  | nil =>
      intro c₂ hkeys _ _
      cases c₂ with
      | nil => rfl
      | cons hd tl => simp at hkeys
  | cons hd tl ih =>
      intro c₂ hkeys hnodup hget
      cases c₂ with
      | nil => simp at hkeys
      | cons hd₂ tl₂ =>
          obtain ⟨k₁, v₁⟩ := hd
          obtain ⟨k₂, v₂⟩ := hd₂
          simp only [List.map_cons, List.cons.injEq] at hkeys
          obtain ⟨rfl, hkeys'⟩ := hkeys
          have hv : v₁ = v₂ := by
            have := hget k₁
            simp [pyDictGet] at this
            exact this
          subst hv
          simp only [List.map_cons, List.nodup_cons] at hnodup
          have htl : tl = tl₂ := by
            refine ih tl₂ hkeys' hnodup.2 (fun k => ?_)
            by_cases hk : k = k₁
            · subst hk
              have h₁ : pyDictGet k tl = none := by
                cases h : pyDictGet k tl with
                | none => rfl
                | some v =>
                    exact absurd ((pyDictGet_isSome_iff_mem k tl).mp
                      (by simp [h])) hnodup.1
              have h₂ : pyDictGet k tl₂ = none := by
                cases h : pyDictGet k tl₂ with
                | none => rfl
                | some v =>
                    exact absurd ((pyDictGet_isSome_iff_mem k tl₂).mp
                      (by simp [h])) (hkeys' ▸ hnodup.1)
              rw [h₁, h₂]
            · have := hget k
              have hne : ¬ (k₁ = k) := fun hx => hk hx.symm
              simpa [pyDictGet, hne] using this
          rw [htl]

theorem pyDictGet_map_self {κ α : Type} [DecidableEq κ] (g : κ → α) :
    ∀ (ks : List κ) (k : κ),
      pyDictGet k (ks.map (fun x => (x, g x))) =
        if k ∈ ks then some (g k) else none := by
  intro ks
  induction ks with
  | nil => intro k; simp [pyDictGet]
  | cons a ks ih =>
      intro k
      simp only [List.map_cons, pyDictGet]
      by_cases h : a = k
      · subst h; simp
      · have hka : ¬ (k = a) := fun hx => h hx.symm
        simp [h, ih, List.mem_cons, hka]

theorem pyCounter_eq {κ : Type} [DecidableEq κ] (l : List κ) :
    pyCounter l = (dedupFirst l).map (fun k => (k, l.count k)) := by
  have hkeys : (pyCounter l).map Prod.fst = dedupFirst l := by
    unfold pyCounter
    rw [foldl_counterAdd_keys]
    simp [dedupFirst]
  apply assoc_eq_of_keys_get
  · rw [hkeys]
    rw [List.map_map]
    rw [show (Prod.fst ∘ fun k => (k, l.count k)) = id from rfl, List.map_id]
  · rw [hkeys]; exact dedupFirst_nodup l
  · intro k
    unfold pyCounter
    rw [foldl_counterAdd_get, pyDictGet_map_self]
    simp [pyDictGet, dedupFirst_mem]

theorem pyDictGet_foldl_insert {κ α : Type} [DecidableEq κ] :
    ∀ (l : List (κ × α)) (d : List (κ × α)) (k : κ),
      pyDictGet k (l.foldl (fun acc kv => pyDictInsert kv.1 kv.2 acc) d) =
        ((l.reverse.find? (fun p => decide (p.1 = k))).map Prod.snd).or
          (pyDictGet k d) := by
  intro l
  induction l with
  | nil => intro d k; simp
  | cons a l ih =>
      intro d k
      simp only [List.foldl_cons, ih, List.reverse_cons, List.find?_append]
      cases hf : List.find? (fun p => decide (p.1 = k)) l.reverse with
      | some p => simp
      | none =>
          rw [pyDictGet_insert]
          by_cases hk : a.1 = k
          · simp [List.find?, hk]
          · simp [List.find?, hk]

theorem buildDict_get {κ α : Type} [DecidableEq κ] (entries : List (κ × α))
    (k : κ) :
    pyDictGet k (buildDict entries) =
      (entries.reverse.find? (fun p => decide (p.1 = k))).map Prod.snd := by
  unfold buildDict
  rw [pyDictGet_foldl_insert]
  cases entries.reverse.find? (fun p => decide (p.1 = k)) <;> rfl

theorem buildDict_get_keyed {κ α : Type} [DecidableEq κ] (key : α → κ)
    (l : List α) (k : κ) :
    pyDictGet k (buildDict (l.map (fun a => (key a, a)))) =
      l.reverse.find? (fun a => decide (key a = k)) := by
  rw [buildDict_get, ← List.map_reverse, List.find?_map, Option.map_map]
  show (l.reverse.find? (fun a => decide (key a = k))).map (fun a => a) =
    l.reverse.find? (fun a => decide (key a = k))
  cases l.reverse.find? (fun a => decide (key a = k)) <;> rfl

theorem filterMap_ite {α β : Type} (p : α → Prop) [DecidablePred p]
    (g : α → β) (l : List α) :
    l.filterMap (fun a => if p a then none else some (g a)) =
      (l.filter (fun a => decide (¬ p a))).map g := by
  induction l with
  | nil => rfl
  | cons a l ih => by_cases h : p a <;> simp [h, ih]

theorem dedupFirstAux_replicate_of_mem {α : Type} [DecidableEq α] (a : α) :
    ∀ (m : Nat) (seen : List α), a ∈ seen →
      dedupFirstAux seen (List.replicate m a) = [] := by
  intro m
  induction m with
  | zero => intro seen _; rfl
  | succ m ih =>
      intro seen h
      simp only [List.replicate_succ, dedupFirstAux, if_pos h]
      exact ih seen h

theorem dedupFirst_replicate {α : Type} [DecidableEq α] (a : α) {n : Nat}
    (h : 0 < n) :
    dedupFirst (List.replicate n a) = [a] := by
  cases n with
  | zero => exact absurd h (by norm_num)
  | succ n =>
      simp only [dedupFirst, List.replicate_succ, dedupFirstAux,
        List.not_mem_nil, if_false]
      rw [dedupFirstAux_replicate_of_mem a n [a] (List.mem_singleton_self a)]

/-- C6: `check_geometry_bbox_out_of_bounds` flags an annotation exactly when
its image_id resolves to an image of the document (through the
`images_by_id` dict, whose last entry wins for a duplicated id) and the
bbox satisfies `x < 0 ∨ y < 0 ∨ x + w > width ∨ y + h > height`; an
annotation whose image_id resolves to no image is skipped and contributes
no finding. -/
theorem check_geometry_bbox_out_of_bounds_correct (data : COCOData) :
    check_geometry_bbox_out_of_bounds data =
      data.annotations.filterMap (fun ann =>
        (data.images.reverse.find?
            (fun img => decide (img.id = ann.image_id))).bind
          (fun img =>
            if ann.bbox.x < 0 ∨ ann.bbox.y < 0 ∨
                (img.width : ℚ) < ann.bbox.x + ann.bbox.w ∨
                (img.height : ℚ) < ann.bbox.y + ann.bbox.h then
              some (oobMsg ann img)
            else none)) := by
  simp only [check_geometry_bbox_out_of_bounds]
  apply List.filterMap_congr
  intro ann _
  rw [buildDict_get_keyed (fun img => img.id) data.images ann.image_id]
  cases hf : data.images.reverse.find?
      (fun img => decide (img.id = ann.image_id)) with
  | none => simp
  | some img => simp

/-- C7: `check_relation_images_without_annotations` returns nothing when the
annotation list is empty, and otherwise flags exactly the images whose id
appears in no annotation's image_id. -/
theorem check_relation_images_without_annotations_correct (data : COCOData) :
    check_relation_images_without_annotations data =
      if data.annotations.isEmpty then []
      else
        (data.images.filter (fun img =>
            decide (∀ ann ∈ data.annotations, ann.image_id ≠ img.id))).map
          noAnnMsg := by
  simp only [check_relation_images_without_annotations]
  by_cases he : data.annotations.isEmpty
  · simp [he]
  · rw [if_neg he, if_neg he]
    rw [filterMap_ite (fun img =>
      img.id ∈ data.annotations.map (fun ann => ann.image_id)) noAnnMsg]
    congr 1
    apply List.filter_congr
    intro img _
    apply decide_eq_decide.mpr
    simp only [List.mem_map, not_exists]
    constructor
    · intro h ann hann heq
      exact h ann ⟨hann, heq⟩
    · intro h ann hx
      exact h ann hx.1 hx.2

/-- C5 (amended): below 50 annotations the imbalance rule returns nothing;
otherwise it flags, in order of first occurrence among the annotations,
exactly the category ids whose annotation count is strictly below
`max(10, 0.001 * total)` and which resolve to a category record (the last
record winning for a duplicated id). A category record with zero
annotations is never flagged. -/
theorem check_statistical_class_distribution_imbalance_correct
    (data : COCOData) :
    check_statistical_class_distribution_imbalance data =
      if data.annotations.length < 50 then []
      else
        (dedupFirst (data.annotations.map (fun a => a.category_id))).filterMap
          (fun cid =>
            if ((data.annotations.map (fun a => a.category_id)).count cid : ℚ) <
                ratMax 10 ((data.annotations.length : ℚ) * (1 / 1000)) then
              (data.categories.reverse.find?
                  (fun c => decide (c.id = cid))).map
                (fun c => imbalanceMsg c.name
                  ((data.annotations.map (fun a => a.category_id)).count cid))
            else none) := by
  simp only [check_statistical_class_distribution_imbalance]
  by_cases h50 : data.annotations.length < 50
  · simp [h50]
  · rw [if_neg h50, if_neg h50]
    rw [pyCounter_eq, List.filterMap_map]
    apply List.filterMap_congr
    intro cid _
    simp only [Function.comp]
    rw [buildDict_get_keyed (fun c => c.id) data.categories cid]
    by_cases hlt : ((data.annotations.map (fun a => a.category_id)).count cid : ℚ) <
        ratMax 10 ((data.annotations.length : ℚ) * (1 / 1000))
    · rw [if_pos hlt, if_pos hlt]
      cases hf : data.categories.reverse.find? (fun c => decide (c.id = cid)) with
      | none => simp
      | some c => simp
    · rw [if_neg hlt, if_neg hlt]

/-- C2 (amended): the area/bbox rule skips exactly the annotations whose
segmentation is a non-empty polygon list; an annotation with an empty list,
an empty RLE object or a non-empty RLE object is checked, and flagged
exactly when `|w * h - area| > atol + 1e-3 * |area|` with `atol = 1e-8`. -/
theorem check_attribute_area_bbox_mismatch_correct (data : COCOData) :
    check_attribute_area_bbox_mismatch data =
      data.annotations.filterMap (fun ann =>
        match ann.segmentation with
        | .polys (_ :: _) => none
        | _ =>
            if |ann.bbox.w * ann.bbox.h - ann.area| ≤
                1 / 100000000 + 1 / 1000 * |ann.area| then none
            else some (mismatchMsg ann)) := by
  simp only [check_attribute_area_bbox_mismatch]
  apply List.filterMap_congr
  intro ann _
  cases hseg : ann.segmentation with
  | polys parts =>
      cases parts with
      | nil => simp [segSkipsAreaCheck, npIsClose]
      | cons p ps => simp [segSkipsAreaCheck]
  | rle fs => simp [segSkipsAreaCheck, npIsClose]

theorem cexAnnRLE_not_close :
    npIsClose (cexAnnRLE.bbox.w * cexAnnRLE.bbox.h) cexAnnRLE.area = false := by
  simp only [npIsClose, cexAnnRLE, decide_eq_false_iff_not]
  intro hle
  rw [show ((2 : ℚ) * 2 - 100) = -96 by norm_num] at hle
  rw [show |(-96 : ℚ)| = 96 by rw [abs_of_nonpos (by norm_num)]; norm_num]
      at hle
  rw [show |(100 : ℚ)| = 100 by rw [abs_of_nonneg (by norm_num)]] at hle
  norm_num at hle

theorem cexDocRLE_rule_eval :
    check_attribute_area_bbox_mismatch cexDocRLE = [mismatchMsg cexAnnRLE] := by
  have hseg : segSkipsAreaCheck cexAnnRLE.segmentation = false := rfl
  simp only [check_attribute_area_bbox_mismatch, cexDocRLE,
    List.filterMap_cons, List.filterMap_nil, hseg, cexAnnRLE_not_close,
    Bool.false_eq_true, if_false]

/-- C2 counterexample: on a document whose only annotation has a non-empty
run-length-encoding segmentation and a mismatched area, the rule does
produce a finding, contradicting the claim that any non-empty segmentation
exempts the annotation. -/
theorem C2_claim_counterexample : ¬ C2Claim cexDocRLE := by
  intro h
  have hmem : cexAnnRLE ∈ cexDocRLE.annotations := List.mem_singleton_self _
  have hseg : segNonemptyB cexAnnRLE.segmentation = true := rfl
  have hnot := h.1 cexAnnRLE hmem hseg
  rw [cexDocRLE_rule_eval] at hnot
  exact hnot (List.mem_singleton_self _)

theorem imbDoc_rule_eval :
    check_statistical_class_distribution_imbalance imbDoc = [] := by
  have hanns : imbDoc.annotations = List.replicate 50 imbAnn := rfl
  simp only [check_statistical_class_distribution_imbalance, hanns,
    List.length_replicate]
  rw [if_neg (by norm_num)]
  rw [show (List.replicate 50 imbAnn).map (fun ann => ann.category_id) =
      List.replicate 50 (1 : Int) from List.map_replicate ..]
  rw [pyCounter_eq, dedupFirst_replicate (1 : Int) (by norm_num)]
  have hcount : (List.replicate 50 (1 : Int)).count 1 = 50 := by
    simp [List.count_replicate]
  rw [List.map_cons, List.map_nil, hcount]
  have hthresh : ¬ (((50 : Nat) : ℚ) <
      ratMax 10 (((50 : Nat) : ℚ) * (1 / 1000))) := by
    rw [ratMax, if_pos (by norm_num)]
    norm_num
  simp only [List.filterMap_cons, List.filterMap_nil]
  rw [if_neg hthresh]

/-- C5 counterexample: a document with 50 annotations, all of category 1,
and a second category record with zero annotations. The claim predicts a
finding for the zero-annotation category (its count 0 is below the
threshold 10 and its record exists), but the rule returns no findings. -/
theorem C5_claim_counterexample : ¬ C5Claim imbDoc := by
  intro h
  have hlen : 50 ≤ imbDoc.annotations.length := by
    rw [show imbDoc.annotations = List.replicate 50 imbAnn from rfl,
      List.length_replicate]
  have hdog : (⟨2, "dog", none⟩ : COCOCategory) ∈ imbDoc.categories := by
    rw [show imbDoc.categories =
      [⟨1, "cat", none⟩, ⟨2, "dog", none⟩] from rfl]
    exact List.mem_cons_of_mem _ (List.mem_singleton_self _)
  have h2 := h.2 hlen ⟨2, "dog", none⟩ hdog
  rw [imbDoc_rule_eval] at h2
  have hcount : (imbDoc.annotations.map (fun a => a.category_id)).count
      (⟨2, "dog", none⟩ : COCOCategory).id = 0 := by
    rw [show imbDoc.annotations.map (fun a => a.category_id) =
        List.replicate 50 (1 : Int) from rfl]
    simp [List.count_replicate]
  rw [hcount] at h2
  have hlt : ((0 : Nat) : ℚ) < ratMax 10 ((imbDoc.annotations.length : ℚ) *
      (1 / 1000)) := by
    rw [show imbDoc.annotations = List.replicate 50 imbAnn from rfl,
      List.length_replicate, ratMax, if_pos (by norm_num)]
    norm_num
  exact absurd (h2.mpr hlt) (List.not_mem_nil _)

theorem runScanAux_cons (data : COCOData) (rule : NamedRule)
    (rules : List NamedRule) (s : FindState) :
    runScanAux data (rule :: rules) s =
      runScanAux data rules (runRuleStep data s rule) := by
  unfold runScanAux
  rw [List.foldl_cons]

theorem runScanAux_append (data : COCOData) (l₁ l₂ : List NamedRule)
    (s : FindState) :
    runScanAux data (l₁ ++ l₂) s =
      runScanAux data l₂ (runScanAux data l₁ s) := by
  unfold runScanAux
  rw [List.foldl_append]

theorem runRuleStep_error (data : COCOData) (s : FindState) (name : String)
    (r : COCOData → RuleOutcome) (e : String) (h : r data = .error e) :
    runRuleStep data s (name, r) =
      { findings := pyDictInsert (name ++ "_execution_error")
          [ruleExecutionErrorMsg] s.findings,
        total_findings := s.total_findings + 1 } := by
  unfold runRuleStep
  rw [show (name, r).2 = r from rfl, h]

theorem runRuleStep_ok_empty (data : COCOData) (s : FindState) (name : String)
    (r : COCOData → RuleOutcome) (h : r data = .ok []) :
    runRuleStep data s (name, r) = s := by
  unfold runRuleStep
  rw [show (name, r).2 = r from rfl, h]
  rfl

/-- C1: the engine's fault isolation. For any rule list split around one
rule: if that rule raises, the loop records the single synthetic finding
`["Rule execution failed with an internal error."]` under
`<name>_execution_error`, adds exactly 1 to the running total, and then
still executes every remaining rule; if the rule returns an empty list, it
contributes no key at all (the scan equals the scan without it). -/
theorem run_scan_isolates_rule_failure (data : COCOData)
    (pre rest : List NamedRule) (name : String)
    (r : COCOData → RuleOutcome) (s : FindState) :
    (∀ e, r data = .error e →
      runScanAux data (pre ++ (name, r) :: rest) s =
        runScanAux data rest
          { findings := pyDictInsert (name ++ "_execution_error")
              [ruleExecutionErrorMsg] (runScanAux data pre s).findings,
            total_findings := (runScanAux data pre s).total_findings + 1 }) ∧
    (r data = .ok [] →
      runScanAux data (pre ++ (name, r) :: rest) s =
        runScanAux data (pre ++ rest) s) := by
  constructor
  · intro e herr
    rw [runScanAux_append, runScanAux_cons,
      runRuleStep_error data (runScanAux data pre s) name r e herr]
  · intro hok
    rw [runScanAux_append, runScanAux_cons,
      runRuleStep_ok_empty data (runScanAux data pre s) name r hok,
      runScanAux_append]

/-- Witness for C1: a raising rule on the empty document yields exactly the
synthetic entry and total 1; a rule returning the empty list leaves the
scan equal to the scan without it. -/
theorem run_scan_isolates_rule_failure_witness :
    runScanAux wData [("bad", fun _ => .error "boom")]
        { findings := [], total_findings := 0 } =
      { findings := [("bad_execution_error", [ruleExecutionErrorMsg])],
        total_findings := 1 } ∧
    runScanAux wData [("quiet", fun _ => .ok []), ("bad2", fun _ => .error "x")]
        { findings := [], total_findings := 0 } =
      runScanAux wData [("bad2", fun _ => .error "x")]
        { findings := [], total_findings := 0 } := by
  constructor
  · have h := (run_scan_isolates_rule_failure wData [] []
      "bad" (fun _ => .error "boom")
      { findings := [], total_findings := 0 }).1 "boom" rfl
    simpa using h
  · have h := (run_scan_isolates_rule_failure wData []
      [("bad2", fun _ => Except.error "x")] "quiet" (fun _ => .ok [])
      { findings := [], total_findings := 0 }).2 rfl
    simpa using h

theorem okFindings_nonempty (data : COCOData) (rules : List NamedRule) :
    ∀ p ∈ okFindings data rules, p.2 ≠ [] := by
  intro p hp
  simp only [okFindings, List.mem_filterMap] at hp
  obtain ⟨r, _, heq⟩ := hp
  cases h : r.2 data with
  | ok l =>
      rw [h] at heq
      by_cases he : l.isEmpty
      · simp [he] at heq
      · simp only [he, Bool.false_eq_true, if_false, Option.some.injEq] at heq
        rw [← heq]
        simpa [List.isEmpty_iff] using he
  | error e => rw [h] at heq; simp at heq

theorem runScanAux_ok_characterization (data : COCOData) :
    ∀ (rules : List NamedRule) (s : FindState),
      (∀ r ∈ rules, ∃ l, r.2 data = Except.ok l) →
      (rules.map Prod.fst).Nodup →
      (∀ r ∈ rules, r.1 ∉ s.findings.map Prod.fst) →
      (runScanAux data rules s).findings =
        s.findings ++ okFindings data rules ∧
      (runScanAux data rules s).total_findings =
        s.total_findings +
          ((okFindings data rules).map (fun p => p.2.length)).sum := by
  intro rules
  induction rules with
  | nil => intro s _ _ _; simp [runScanAux, okFindings]
  | cons r rules ih =>
      intro s hok hnodup hfresh
      obtain ⟨l, hl⟩ := hok r (List.mem_cons_self r rules)
      have hok' : ∀ r' ∈ rules, ∃ l', r'.2 data = Except.ok l' :=
        fun r' hr' => hok r' (List.mem_cons_of_mem r hr')
      have hnodup' : (rules.map Prod.fst).Nodup := by
        rw [List.map_cons, List.nodup_cons] at hnodup
        exact hnodup.2
      have hhead : r.1 ∉ rules.map Prod.fst := by
        rw [List.map_cons, List.nodup_cons] at hnodup
        exact hnodup.1
      rw [runScanAux_cons]
      by_cases he : l.isEmpty
      · have hstep : runRuleStep data s r = s := by
          unfold runRuleStep
          rw [hl]
          simp [he]
        have hofind : okFindings data (r :: rules) = okFindings data rules := by
          simp only [okFindings, List.filterMap_cons, hl]
          rw [if_pos he]
        rw [hstep, hofind]
        exact ih s hok' hnodup' (fun r' hr' =>
          hfresh r' (List.mem_cons_of_mem r hr'))
      · have hstep : runRuleStep data s r =
            { findings := s.findings ++ [(r.1, l)],
              total_findings := s.total_findings + l.length } := by
          unfold runRuleStep
          rw [hl]
          simp only [he, Bool.false_eq_true, if_false]
          rw [pyDictInsert_fresh r.1 l s.findings
            (hfresh r (List.mem_cons_self r rules))]
        have hofind : okFindings data (r :: rules) =
            (r.1, l) :: okFindings data rules := by
          simp only [okFindings, List.filterMap_cons, hl]
          rw [if_neg he]
        rw [hstep, hofind]
        have hfresh' : ∀ r' ∈ rules,
            r'.1 ∉ ((⟨s.findings ++ [(r.1, l)],
              s.total_findings + l.length⟩ : FindState)).findings.map
                Prod.fst := by
          intro r' hr'
          rw [List.map_append]
          intro hmem
          rcases List.mem_append.mp hmem with hm | hm
          · exact hfresh r' (List.mem_cons_of_mem r hr') hm
          · simp only [List.map_cons, List.map_nil,
              List.mem_singleton] at hm
            exact hhead (hm ▸ List.mem_map_of_mem Prod.fst hr')
        obtain ⟨ih1, ih2⟩ := ih ⟨s.findings ++ [(r.1, l)],
          s.total_findings + l.length⟩ hok' hnodup' hfresh'
        refine ⟨?_, ?_⟩
        · rw [show runScanAux data rules
              { findings := s.findings ++ [(r.1, l)],
                total_findings := s.total_findings + l.length } =
            runScanAux data rules ⟨s.findings ++ [(r.1, l)],
              s.total_findings + l.length⟩ from rfl, ih1]
          simp
        · rw [show runScanAux data rules
              { findings := s.findings ++ [(r.1, l)],
                total_findings := s.total_findings + l.length } =
            runScanAux data rules ⟨s.findings ++ [(r.1, l)],
              s.total_findings + l.length⟩ from rfl, ih2]
          simp only [List.map_cons, List.sum_cons]
          omega

/-- C9: every ScanResult run_scan produces has `total_findings` equal to the
sum of the lengths of the finding lists in the findings mapping, and only
non-empty lists are stored. -/
theorem run_scan_total_invariant (data : COCOData) :
    (run_scan data).total_findings =
      ((run_scan data).findings.map (fun p => p.2.length)).sum ∧
    ∀ p ∈ (run_scan data).findings, p.2 ≠ [] := by
  have hok : ∀ r ∈ get_all_rules, ∃ l, r.2 data = Except.ok l := by
    intro r hr
    fin_cases hr <;> exact ⟨_, rfl⟩
  have hnodup : (get_all_rules.map Prod.fst).Nodup := by
    simp only [get_all_rules, List.map_cons, List.map_nil]
    decide
  have h := runScanAux_ok_characterization data get_all_rules
    { findings := [], total_findings := 0 } hok hnodup (by simp)
  have hfind : (run_scan data).findings = okFindings data get_all_rules := by
    show (runScanAux data get_all_rules
      { findings := [], total_findings := 0 }).findings = _
    rw [h.1]
    rfl
  have htot : (run_scan data).total_findings =
      ((okFindings data get_all_rules).map (fun p => p.2.length)).sum := by
    show (runScanAux data get_all_rules
      { findings := [], total_findings := 0 }).total_findings = _
    rw [h.2]
    simp
  constructor
  · rw [htot, hfind]
  · intro p hp
    rw [hfind] at hp
    exact okFindings_nonempty data get_all_rules p hp

theorem objGet_append (l₁ l₂ : List (String × Json)) (k : String) :
    objGet (l₁ ++ l₂) k =
      match objGet l₁ k with
      | some v => some v
      | none => objGet l₂ k := by
  induction l₁ with
  | nil => simp [objGet]
  | cons hd tl ih =>
      obtain ⟨k₀, v₀⟩ := hd
      by_cases h : k₀ = k
      · simp [objGet, h]
      · simp [objGet, h, ih]

theorem objGet_none_of_keys (l : List (String × Json)) (k : String)
    (h : ∀ p ∈ l, p.1 ≠ k) : objGet l k = none := by
  induction l with
  | nil => rfl
  | cons hd tl ih =>
      simp only [objGet]
      rw [if_neg (h hd (List.mem_cons_self hd tl))]
      exact ih (fun p hp => h p (List.mem_cons_of_mem hd hp))

theorem mapM_some_mem {α β : Type} (f : α → Option β) :
    ∀ (l : List α) (l' : List β), l.mapM f = some l' →
      ∀ b ∈ l', ∃ a ∈ l, f a = some b := by
  intro l
  induction l with
  | nil =>
      intro l' h b hb
      simp only [List.mapM_nil, Option.pure_def, Option.some.injEq] at h
      subst h
      simp at hb
  | cons a l ih =>
      intro l' h b hb
      rw [List.mapM_cons] at h
      simp only [Option.pure_def, Option.bind_eq_bind,
        Option.bind_eq_some, Option.some.injEq] at h
      obtain ⟨b₀, hb₀, bs, hbs, hcons⟩ := h
      subst hcons
      rcases List.mem_cons.mp hb with rfl | hbmem
      · exact ⟨a, List.mem_cons_self a l, hb₀⟩
      · obtain ⟨a', ha', hfa'⟩ := ih bs hbs b hbmem
        exact ⟨a', List.mem_cons_of_mem a ha', hfa'⟩

theorem mapM_some_forall {α β : Type} (f : α → Option β) :
    ∀ (l : List α) (l' : List β), l.mapM f = some l' →
      ∀ a ∈ l, ∃ b, f a = some b := by
  intro l
  induction l with
  | nil => intro l' _ a ha; simp at ha
  | cons a l ih =>
      intro l' h a' ha'
      rw [List.mapM_cons] at h
      simp only [Option.pure_def, Option.bind_eq_bind,
        Option.bind_eq_some, Option.some.injEq] at h
      obtain ⟨b₀, hb₀, bs, hbs, _⟩ := h
      rcases List.mem_cons.mp ha' with rfl | hmem
      · exact ⟨b₀, hb₀⟩
      · exact ih bs hbs a' hmem

theorem mapM_map_of_forall {α β : Type} (f : β → Option α) (g : α → β) :
    ∀ (l : List α), (∀ x ∈ l, f (g x) = some x) →
      (l.map g).mapM f = some l := by
  intro l
  induction l with
  | nil => intro _; rfl
  | cons a l ih =>
      intro h
      rw [List.map_cons, List.mapM_cons,
        h a (List.mem_cons_self a l),
        ih (fun x hx => h x (List.mem_cons_of_mem a hx))]
      rfl

theorem parseBBox_some (j : Json) (b : BBox) (h : parseBBox j = some b) :
    0 ≤ b.w ∧ 0 ≤ b.h := by
  unfold parseBBox at h
  split at h
  · simp only [Option.bind_eq_some] at h
    obtain ⟨x, hx, y, hy, w, hw, hh₀⟩ := h
    obtain ⟨hv, hvv, hite⟩ := hh₀
    split at hite
    · rename_i hcond
      cases hite
      exact hcond
    · exact absurd hite (by simp)
  · exact absurd h (by simp)

theorem parseBBox_neg (x y w h : ℚ) (hneg : w < 0 ∨ h < 0) :
    parseBBox (.arr [.num x, .num y, .num w, .num h]) = none := by
  unfold parseBBox
  simp only [asRat, Option.some_bind]
  rw [if_neg]
  intro ⟨hw, hh⟩
  rcases hneg with hlt | hlt
  · exact absurd hw (not_le.mpr hlt)
  · exact absurd hh (not_le.mpr hlt)

theorem parseImage_some (j : Json) (img : COCOImage)
    (h : parseImage j = some img) : 0 < img.width ∧ 0 < img.height := by
  unfold parseImage at h
  split at h
  · split at h
    · simp only [Option.bind_eq_some] at h
      obtain ⟨id, hid, w, hw, ht, hht, fn, hfn, lic, hlic, fl, hfl, cu, hcu,
        dc, hdc, hite⟩ := h
      split at hite
      · rename_i hcond
        cases hite
        exact hcond
      · exact absurd hite (by simp)
    · exact absurd h (by simp)
  · exact absurd h (by simp)

theorem parseAnn_inv (fields : List (String × Json)) (a : COCOAnnotation)
    (h : parseAnn (.obj fields) = some a) :
    reqField parseBBox fields "bbox" = some a.bbox ∧
    0 ≤ a.area ∧ 0 ≤ a.bbox.w ∧ 0 ≤ a.bbox.h ∧
    0 ≤ a.iscrowd ∧ a.iscrowd ≤ 1 := by
  simp only [parseAnn] at h
  split at h
  · simp only [Option.bind_eq_some] at h
    obtain ⟨id, hid, iid, hiid, cid, hcid, seg, hseg, ar, har, bb, hbb,
      ic, hic, hite⟩ := h
    split at hite
    · rename_i hcond
      cases hite
      have hpb : ∃ jb, objGet fields "bbox" = some jb ∧
          parseBBox jb = some bb := by
        have := hbb
        unfold reqField at this
        exact Option.bind_eq_some.mp this
      obtain ⟨jb, hjb, hpbb⟩ := hpb
      have hwh := parseBBox_some jb bb hpbb
      exact ⟨hbb, hcond.1, hwh.1, hwh.2, hcond.2.1, hcond.2.2⟩
    · exact absurd hite (by simp)
  · exact absurd h (by simp)

theorem parseList_inv {α : Type} (f : Json → Option α) (j : Json)
    (l : List α) (h : parseList f j = some l) :
    ∃ xs, j = .arr xs ∧ xs.mapM f = some l := by
  unfold parseList at h
  split at h
  · rename_i xs
    exact ⟨xs, rfl, h⟩
  · exact absurd h (by simp)

theorem parseInfo_inv (fields : List (String × Json)) (i : COCOInfo)
    (h : parseInfo (.obj fields) = some i) :
    optField asInt fields "year" = some i.year ∧
    optField asStr fields "version" = some i.version ∧
    optField asStr fields "description" = some i.description ∧
    optField asStr fields "contributor" = some i.contributor ∧
    optField asStr fields "url" = some i.url ∧
    optField asStr fields "date_created" = some i.date_created ∧
    i.extras = fields.filter (fun p => p.1 ∉ infoKnownKeys) := by
  unfold parseInfo at h
  simp only [Option.bind_eq_some, Option.some.injEq] at h
  obtain ⟨yr, hyr, ver, hver, de, hde, co, hco, u, hu, dc, hdc, hmk⟩ := h
  subst hmk
  exact ⟨hyr, hver, hde, hco, hu, hdc, rfl⟩

theorem parseCOCOData_obj (j : Json) (d : COCOData)
    (h : parseCOCOData j = some d) : ∃ fields, j = .obj fields := by
  unfold parseCOCOData at h
  split at h
  · rename_i fields
    exact ⟨fields, rfl⟩
  · exact absurd h (by simp)

theorem parseCOCOData_inv (fields : List (String × Json)) (d : COCOData)
    (h : parseCOCOData (.obj fields) = some d) :
    fields.all (fun p => decide (p.1 ∈ cocoKeys)) = true ∧
    reqField parseInfo fields "info" = some d.info ∧
    reqField (parseList parseLicense) fields "licenses" = some d.licenses ∧
    reqField (parseList parseImage) fields "images" = some d.images ∧
    reqField (parseList parseAnn) fields "annotations" =
      some d.annotations ∧
    reqField (parseList parseCategory) fields "categories" =
      some d.categories := by
  simp only [parseCOCOData] at h
  split at h
  · rename_i hall
    simp only [Option.bind_eq_some, Option.some.injEq] at h
    obtain ⟨info, hinfo, lic, hlic, img, himg, ann, hann, cat, hcat,
      hmk⟩ := h
    subst hmk
    exact ⟨hall, hinfo, hlic, himg, hann, hcat⟩
  · exact absurd h (by simp)

theorem validateCOCO_ok (j : Json) (d : COCOData)
    (h : validateCOCO j = .ok d) : parseCOCOData j = some d := by
  unfold validateCOCO at h
  split at h
  · rename_i d' hd'
    cases h
    exact hd'
  · exact absurd h (by simp)

theorem validateCOCO_of_parse_none (j : Json)
    (h : parseCOCOData j = none) :
    validateCOCO j = .error (.invalidFormat "Data validation failed") := by
  unfold validateCOCO
  rw [h]

theorem parseAnn_props (j : Json) (a : COCOAnnotation)
    (h : parseAnn j = some a) :
    0 ≤ a.area ∧ 0 ≤ a.bbox.w ∧ 0 ≤ a.bbox.h ∧
    0 ≤ a.iscrowd ∧ a.iscrowd ≤ 1 := by
  cases j with
  | obj fields => exact (parseAnn_inv fields a h).2
  | null => simp [parseAnn] at h
  | bool b => simp [parseAnn] at h
  | num q => simp [parseAnn] at h
  | str s => simp [parseAnn] at h
  | arr xs => simp [parseAnn] at h

/-- C3: an annotation record whose bbox has a negative width or height is
rejected at construction time — `parseAnn` fails on it, any document whose
annotations array contains it fails validation with an
`InvalidFormatError`, and consequently every annotation of a successfully
validated document has non-negative bbox width and height, so such bboxes
never reach rule evaluation. -/
theorem negative_bbox_rejected :
    (∀ (fields : List (String × Json)) (x y w h : ℚ),
      objGet fields "bbox" =
        some (.arr [.num x, .num y, .num w, .num h]) →
      (w < 0 ∨ h < 0) → parseAnn (.obj fields) = none) ∧
    (∀ (fields : List (String × Json)) (annJs : List Json)
      (annFields : List (String × Json)) (x y w h : ℚ),
      objGet fields "annotations" = some (.arr annJs) →
      Json.obj annFields ∈ annJs →
      objGet annFields "bbox" =
        some (.arr [.num x, .num y, .num w, .num h]) →
      (w < 0 ∨ h < 0) →
      validateCOCO (.obj fields) =
        .error (.invalidFormat "Data validation failed")) ∧
    (∀ (j : Json) (d : COCOData), validateCOCO j = .ok d →
      ∀ ann ∈ d.annotations, 0 ≤ ann.bbox.w ∧ 0 ≤ ann.bbox.h) := by
  have h1 : ∀ (fields : List (String × Json)) (x y w h : ℚ),
      objGet fields "bbox" =
        some (.arr [.num x, .num y, .num w, .num h]) →
      (w < 0 ∨ h < 0) → parseAnn (.obj fields) = none := by
    intro fields x y w h hget hneg
    cases hp : parseAnn (.obj fields) with
    | none => rfl
    | some a =>
        obtain ⟨hbb, _⟩ := parseAnn_inv fields a hp
        unfold reqField at hbb
        obtain ⟨jb, hjb, hpbb⟩ := Option.bind_eq_some.mp hbb
        rw [hget] at hjb
        have hje := Option.some.inj hjb
        rw [← hje] at hpbb
        rw [parseBBox_neg x y w h hneg] at hpbb
        exact Option.noConfusion hpbb
  refine ⟨h1, ?_, ?_⟩
  · intro fields annJs annFields x y w h hgetAnns hmem hbbox hneg
    cases hp : parseCOCOData (.obj fields) with
    | none => exact validateCOCO_of_parse_none _ hp
    | some d =>
        obtain ⟨_, _, _, _, hanns, _⟩ := parseCOCOData_inv fields d hp
        unfold reqField at hanns
        obtain ⟨jl, hjl, hpl⟩ := Option.bind_eq_some.mp hanns
        rw [hgetAnns] at hjl
        have hje := Option.some.inj hjl
        rw [← hje] at hpl
        obtain ⟨xs, hxs, hmapM⟩ := parseList_inv parseAnn _ _ hpl
        injection hxs with hxs'
        rw [← hxs'] at hmapM
        obtain ⟨b, hb⟩ :=
          mapM_some_forall parseAnn _ _ hmapM (Json.obj annFields) hmem
        rw [h1 annFields x y w h hbbox hneg] at hb
        exact Option.noConfusion hb
  · intro j d hv ann hann
    have hp := validateCOCO_ok j d hv
    obtain ⟨fields, rfl⟩ := parseCOCOData_obj j d hp
    obtain ⟨_, _, _, _, hanns, _⟩ := parseCOCOData_inv fields d hp
    unfold reqField at hanns
    obtain ⟨jl, hjl, hpl⟩ := Option.bind_eq_some.mp hanns
    obtain ⟨xs, hxs, hmapM⟩ := parseList_inv parseAnn _ _ hpl
    obtain ⟨aj, hajmem, haj⟩ :=
      mapM_some_mem parseAnn xs d.annotations hmapM ann hann
    have := parseAnn_props aj ann haj
    exact ⟨this.2.1, this.2.2.1⟩

/-- Witness for C3: a concrete annotation record with bbox width −2 fails
to construct, and the concrete validated document doc0 has only
non-negative bbox dimensions. -/
theorem negative_bbox_rejected_witness :
    parseAnn (.obj negBBoxFields) = none ∧
    ∀ ann ∈ doc0.annotations, 0 ≤ ann.bbox.w ∧ 0 ≤ ann.bbox.h := by
  constructor
  · exact negative_bbox_rejected.1 negBBoxFields 0 0 (-2) 2 (by rfl)
      (Or.inl (by norm_num))
  · exact negative_bbox_rejected.2.2 j0 doc0 (by rfl)

theorem optField_append_unknown {α : Type} (f : Json → Option α)
    (fields extra : List (String × Json)) (k : String)
    (hk : ∀ p ∈ extra, p.1 ≠ k) :
    optField f (fields ++ extra) k = optField f fields k := by
  unfold optField
  rw [objGet_append]
  cases hg : objGet fields k with
  | some v => rfl
  | none => rw [objGet_none_of_keys extra k hk]

/-- C4: a schema-valid document made invalid only by an unknown top-level
field fails validation with an `InvalidFormatError` (in fact any unknown
top-level key forces failure), while unknown fields inside the info block
never cause failure: they are preserved as extras. -/
theorem unknown_field_handling :
    (∀ (fields : List (String × Json)),
      (∃ p ∈ fields, p.1 ∉ cocoKeys) →
      validateCOCO (.obj fields) =
        .error (.invalidFormat "Data validation failed")) ∧
    (∀ (fields extra : List (String × Json)) (i : COCOInfo),
      parseInfo (.obj fields) = some i →
      (∀ p ∈ extra, p.1 ∉ infoKnownKeys) →
      parseInfo (.obj (fields ++ extra)) =
        some { i with extras := i.extras ++ extra }) := by
  constructor
  · intro fields ⟨p, hp, hpk⟩
    cases hv : parseCOCOData (.obj fields) with
    | none => exact validateCOCO_of_parse_none _ hv
    | some d =>
        obtain ⟨hall, _⟩ := parseCOCOData_inv fields d hv
        rw [List.all_eq_true] at hall
        exact absurd (of_decide_eq_true (hall p hp)) hpk
  · intro fields extra i hi hext
    obtain ⟨hyr, hver, hde, hco, hu, hdc, hextras⟩ := parseInfo_inv fields i hi
    have hne : ∀ (k : String), k ∈ infoKnownKeys → ∀ p ∈ extra, p.1 ≠ k :=
      fun k hk p hp heq => hext p hp (heq ▸ hk)
    have hdec : ∀ p ∈ extra, (decide (p.1 ∉ infoKnownKeys)) = true := by
      intro p hp
      simpa using hext p hp
    simp only [parseInfo,
      optField_append_unknown asInt fields extra "year"
        (hne "year" (by decide)),
      optField_append_unknown asStr fields extra "version"
        (hne "version" (by decide)),
      optField_append_unknown asStr fields extra "description"
        (hne "description" (by decide)),
      optField_append_unknown asStr fields extra "contributor"
        (hne "contributor" (by decide)),
      optField_append_unknown asStr fields extra "url"
        (hne "url" (by decide)),
      optField_append_unknown asStr fields extra "date_created"
        (hne "date_created" (by decide)),
      hyr, hver, hde, hco, hu, hdc, Option.some_bind]
    rw [List.filter_append, List.filter_eq_self.mpr hdec, ← hextras]

/-- Witness for C4: adding the unknown key "bogus" at top level makes
validation fail, and adding the unknown key "maintainer" inside a valid
info block keeps it valid, preserving the extra field. -/
theorem unknown_field_handling_witness :
    validateCOCO (.obj [("bogus", .null)]) =
      .error (.invalidFormat "Data validation failed") ∧
    parseInfo (.obj ([("year", .num 2024)] ++ [("maintainer", .str "sun")])) =
      some ⟨some 2024, none, none, none, none, none,
        [("maintainer", .str "sun")]⟩ := by
  constructor
  · exact unknown_field_handling.1 [("bogus", .null)]
      ⟨("bogus", .null), List.mem_singleton_self _, by decide⟩
  · exact unknown_field_handling.2 [("year", .num 2024)]
      [("maintainer", .str "sun")]
      ⟨some 2024, none, none, none, none, none, []⟩ (by rfl) (by decide)

/-- C10: syntactically valid JSON whose top-level value is not an object
(array, string, number, boolean or null) is rejected by the validation
stage of parse_coco with an `InvalidFormatError`, never returned as a
document. -/
theorem nonobject_toplevel_rejected (j : Json) (h : j.isObjB = false) :
    parse_coco (.ok j) = .error (.invalidFormat "Data validation failed") := by
  have hp : parseCOCOData j = none := by
    cases j with
    | obj fields => simp [Json.isObjB] at h
    | null => rfl
    | bool b => rfl
    | num q => rfl
    | str s => rfl
    | arr xs => rfl
  show validateCOCO j = _
  exact validateCOCO_of_parse_none j hp

/-- Witness for C10: a top-level JSON array is rejected as an
`InvalidFormatError`. -/
theorem nonobject_toplevel_rejected_witness :
    parse_coco (.ok (.arr [])) =
      .error (.invalidFormat "Data validation failed") :=
  nonobject_toplevel_rejected (.arr []) rfl

theorem asInt_intCast (n : Int) : asInt (.num (n : ℚ)) = some n := by
  show (if ((n : ℚ)).den = 1 then some ((n : ℚ)).num else none) = some n
  rw [if_pos (Rat.den_intCast n), Rat.num_intCast]

theorem roundtrip_seg (s : Segmentation) :
    parseSeg (some (serializeSeg s)) = some s := by
  cases s <;> rfl

theorem roundtrip_bbox (b : BBox) (hw : 0 ≤ b.w) (hh : 0 ≤ b.h) :
    parseBBox (serializeBBox b) = some b := by
  obtain ⟨x, y, w, h⟩ := b
  simp only [serializeBBox, parseBBox, asRat, Option.some_bind]
  rw [if_pos ⟨hw, hh⟩]

theorem optField_head_int (k : String) (v : Option Int)
    (rest : List (String × Json)) :
    optField asInt ((k, optJson intJson v) :: rest) k = some v := by
  cases v with
  | none => simp [optField, objGet, optJson]
  | some n => simp [optField, objGet, optJson, intJson, asInt_intCast]

theorem optField_head_str (k : String) (v : Option String)
    (rest : List (String × Json)) :
    optField asStr ((k, optJson strJson v) :: rest) k = some v := by
  cases v with
  | none => simp [optField, objGet, optJson]
  | some s => simp [optField, objGet, optJson, strJson, asStr]

theorem optField_skip {α : Type} (f : Json → Option α) (k' k : String)
    (v : Json) (rest : List (String × Json)) (hne : k' ≠ k) :
    optField f ((k', v) :: rest) k = optField f rest k := by
  unfold optField
  simp [objGet, hne]

theorem roundtrip_license (l : COCOLicense) :
    parseLicense (serializeLicense l) = some l := by
  obtain ⟨id, name, url⟩ := l
  simp only [serializeLicense, parseLicense]
  rw [if_pos (by simp [licenseKeys])]
  rw [show reqField asInt
      [("id", intJson id), ("name", strJson name),
       ("url", optJson strJson url)] "id" = some id from by
    simp [reqField, objGet, intJson, asInt_intCast]]
  rw [show reqField asStr
      [("id", intJson id), ("name", strJson name),
       ("url", optJson strJson url)] "name" = some name from by
    simp [reqField, objGet, strJson, asStr]]
  rw [optField_skip asStr "id" "url" _ _ (by decide),
    optField_skip asStr "name" "url" _ _ (by decide),
    optField_head_str]
  rfl

theorem roundtrip_category (c : COCOCategory) :
    parseCategory (serializeCategory c) = some c := by
  obtain ⟨id, name, sup⟩ := c
  simp only [serializeCategory, parseCategory]
  rw [if_pos (by simp [categoryKeys])]
  rw [show reqField asInt
      [("id", intJson id), ("name", strJson name),
       ("supercategory", optJson strJson sup)] "id" = some id from by
    simp [reqField, objGet, intJson, asInt_intCast]]
  rw [show reqField asStr
      [("id", intJson id), ("name", strJson name),
       ("supercategory", optJson strJson sup)] "name" = some name from by
    simp [reqField, objGet, strJson, asStr]]
  rw [optField_skip asStr "id" "supercategory" _ _ (by decide),
    optField_skip asStr "name" "supercategory" _ _ (by decide),
    optField_head_str]
  rfl

theorem asInt_intJson (n : Int) : asInt (intJson n) = some n :=
  asInt_intCast n

theorem asStr_strJson (s : String) : asStr (strJson s) = some s := rfl

theorem asRat_num (q : ℚ) : asRat (.num q) = some q := rfl

theorem parseList_arr {α : Type} (f : Json → Option α) (xs : List Json) :
    parseList f (.arr xs) = xs.mapM f := rfl

theorem reqField_head {α : Type} (f : Json → Option α) (k : String)
    (v : Json) (rest : List (String × Json)) :
    reqField f ((k, v) :: rest) k = f v := by
  unfold reqField
  simp [objGet]

theorem reqField_skip {α : Type} (f : Json → Option α) (k' k : String)
    (v : Json) (rest : List (String × Json)) (hne : k' ≠ k) :
    reqField f ((k', v) :: rest) k = reqField f rest k := by
  unfold reqField
  simp [objGet, hne]

theorem objGet_head (k : String) (v : Json) (rest : List (String × Json)) :
    objGet ((k, v) :: rest) k = some v := by
  simp [objGet]

theorem objGet_skip (k' k : String) (v : Json) (rest : List (String × Json))
    (hne : k' ≠ k) : objGet ((k', v) :: rest) k = objGet rest k := by
  simp [objGet, hne]

theorem roundtrip_image (img : COCOImage) (hw : 0 < img.width)
    (hh : 0 < img.height) :
    parseImage (serializeImage img) = some img := by
  obtain ⟨id, width, height, fn, lic, fl, cu, dc⟩ := img
  simp only [serializeImage, parseImage]
  rw [if_pos (by simp [imageKeys])]
  rw [reqField_head asInt "id" _ _, asInt_intJson]
  rw [reqField_skip asInt "id" "width" _ _ (by decide),
    reqField_head asInt "width" _ _, asInt_intJson]
  rw [reqField_skip asInt "id" "height" _ _ (by decide),
    reqField_skip asInt "width" "height" _ _ (by decide),
    reqField_head asInt "height" _ _, asInt_intJson]
  rw [reqField_skip asStr "id" "file_name" _ _ (by decide),
    reqField_skip asStr "width" "file_name" _ _ (by decide),
    reqField_skip asStr "height" "file_name" _ _ (by decide),
    reqField_head asStr "file_name" _ _, asStr_strJson]
  rw [optField_skip asInt "id" "license" _ _ (by decide),
    optField_skip asInt "width" "license" _ _ (by decide),
    optField_skip asInt "height" "license" _ _ (by decide),
    optField_skip asInt "file_name" "license" _ _ (by decide),
    optField_head_int]
  rw [optField_skip asStr "id" "flickr_url" _ _ (by decide),
    optField_skip asStr "width" "flickr_url" _ _ (by decide),
    optField_skip asStr "height" "flickr_url" _ _ (by decide),
    optField_skip asStr "file_name" "flickr_url" _ _ (by decide),
    optField_skip asStr "license" "flickr_url" _ _ (by decide),
    optField_head_str]
  rw [optField_skip asStr "id" "coco_url" _ _ (by decide),
    optField_skip asStr "width" "coco_url" _ _ (by decide),
    optField_skip asStr "height" "coco_url" _ _ (by decide),
    optField_skip asStr "file_name" "coco_url" _ _ (by decide),
    optField_skip asStr "license" "coco_url" _ _ (by decide),
    optField_skip asStr "flickr_url" "coco_url" _ _ (by decide),
    optField_head_str]
  rw [optField_skip asStr "id" "date_captured" _ _ (by decide),
    optField_skip asStr "width" "date_captured" _ _ (by decide),
    optField_skip asStr "height" "date_captured" _ _ (by decide),
    optField_skip asStr "file_name" "date_captured" _ _ (by decide),
    optField_skip asStr "license" "date_captured" _ _ (by decide),
    optField_skip asStr "flickr_url" "date_captured" _ _ (by decide),
    optField_skip asStr "coco_url" "date_captured" _ _ (by decide),
    optField_head_str]
  simp only [Option.some_bind]
  rw [if_pos ⟨hw, hh⟩]

theorem roundtrip_info (i : COCOInfo)
    (hext : ∀ p ∈ i.extras, p.1 ∉ infoKnownKeys) :
    parseInfo (serializeInfo i) = some i := by
  obtain ⟨yr, ver, de, co, u, dc, extras⟩ := i
  have hdec : ∀ p ∈ extras, (decide (p.1 ∉ infoKnownKeys)) = true := by
    intro p hp
    simpa using hext p hp
  simp only [serializeInfo, List.cons_append, List.nil_append, parseInfo]
  rw [optField_head_int]
  rw [optField_skip asStr "year" "version" _ _ (by decide),
    optField_head_str]
  rw [optField_skip asStr "year" "description" _ _ (by decide),
    optField_skip asStr "version" "description" _ _ (by decide),
    optField_head_str]
  rw [optField_skip asStr "year" "contributor" _ _ (by decide),
    optField_skip asStr "version" "contributor" _ _ (by decide),
    optField_skip asStr "description" "contributor" _ _ (by decide),
    optField_head_str]
  rw [optField_skip asStr "year" "url" _ _ (by decide),
    optField_skip asStr "version" "url" _ _ (by decide),
    optField_skip asStr "description" "url" _ _ (by decide),
    optField_skip asStr "contributor" "url" _ _ (by decide),
    optField_head_str]
  rw [optField_skip asStr "year" "date_created" _ _ (by decide),
    optField_skip asStr "version" "date_created" _ _ (by decide),
    optField_skip asStr "description" "date_created" _ _ (by decide),
    optField_skip asStr "contributor" "date_created" _ _ (by decide),
    optField_skip asStr "url" "date_created" _ _ (by decide),
    optField_head_str]
  simp only [Option.some_bind, Option.some.injEq]
  rw [show (("year", optJson intJson yr) :: ("version", optJson strJson ver)
      :: ("description", optJson strJson de)
      :: ("contributor", optJson strJson co) :: ("url", optJson strJson u)
      :: ("date_created", optJson strJson dc) :: extras).filter
        (fun p => decide (p.1 ∉ infoKnownKeys)) =
      extras.filter (fun p => decide (p.1 ∉ infoKnownKeys)) from by
    simp [List.filter_cons, infoKnownKeys]]
  rw [List.filter_eq_self.mpr hdec]

theorem roundtrip_ann (a : COCOAnnotation)
    (h : 0 ≤ a.area ∧ 0 ≤ a.bbox.w ∧ 0 ≤ a.bbox.h ∧
      0 ≤ a.iscrowd ∧ a.iscrowd ≤ 1) :
    parseAnn (serializeAnn a) = some a := by
  obtain ⟨id, iid, cid, seg, ar, bb, ic⟩ := a
  obtain ⟨h1, h2, h3, h4, h5⟩ := h
  simp only [serializeAnn, parseAnn]
  rw [if_pos (by simp [annKeys])]
  rw [reqField_head asInt "id" _ _, asInt_intJson]
  rw [reqField_skip asInt "id" "image_id" _ _ (by decide),
    reqField_head asInt "image_id" _ _, asInt_intJson]
  rw [reqField_skip asInt "id" "category_id" _ _ (by decide),
    reqField_skip asInt "image_id" "category_id" _ _ (by decide),
    reqField_head asInt "category_id" _ _, asInt_intJson]
  rw [objGet_skip "id" "segmentation" _ _ (by decide),
    objGet_skip "image_id" "segmentation" _ _ (by decide),
    objGet_skip "category_id" "segmentation" _ _ (by decide),
    objGet_head "segmentation" _ _, roundtrip_seg]
  rw [reqField_skip asRat "id" "area" _ _ (by decide),
    reqField_skip asRat "image_id" "area" _ _ (by decide),
    reqField_skip asRat "category_id" "area" _ _ (by decide),
    reqField_skip asRat "segmentation" "area" _ _ (by decide),
    reqField_head asRat "area" _ _, asRat_num]
  rw [reqField_skip parseBBox "id" "bbox" _ _ (by decide),
    reqField_skip parseBBox "image_id" "bbox" _ _ (by decide),
    reqField_skip parseBBox "category_id" "bbox" _ _ (by decide),
    reqField_skip parseBBox "segmentation" "bbox" _ _ (by decide),
    reqField_skip parseBBox "area" "bbox" _ _ (by decide),
    reqField_head parseBBox "bbox" _ _, roundtrip_bbox bb h2 h3]
  rw [reqField_skip asInt "id" "iscrowd" _ _ (by decide),
    reqField_skip asInt "image_id" "iscrowd" _ _ (by decide),
    reqField_skip asInt "category_id" "iscrowd" _ _ (by decide),
    reqField_skip asInt "segmentation" "iscrowd" _ _ (by decide),
    reqField_skip asInt "area" "iscrowd" _ _ (by decide),
    reqField_skip asInt "bbox" "iscrowd" _ _ (by decide),
    reqField_head asInt "iscrowd" _ _, asInt_intJson]
  simp only [Option.some_bind]
  rw [if_pos ⟨h1, h4, h5⟩]

theorem roundtrip_doc (d : COCOData)
    (hinfo : ∀ p ∈ d.info.extras, p.1 ∉ infoKnownKeys)
    (himg : ∀ img ∈ d.images, 0 < img.width ∧ 0 < img.height)
    (hann : ∀ a ∈ d.annotations, 0 ≤ a.area ∧ 0 ≤ a.bbox.w ∧
      0 ≤ a.bbox.h ∧ 0 ≤ a.iscrowd ∧ a.iscrowd ≤ 1) :
    parseCOCOData (serializeDoc d) = some d := by
  obtain ⟨info, lic, imgs, anns, cats⟩ := d
  have h1 : parseInfo (serializeInfo info) = some info :=
    roundtrip_info info hinfo
  have h2 : (lic.map serializeLicense).mapM parseLicense = some lic :=
    mapM_map_of_forall _ _ lic (fun x _ => roundtrip_license x)
  have h3 : (imgs.map serializeImage).mapM parseImage = some imgs :=
    mapM_map_of_forall _ _ imgs
      (fun x hx => roundtrip_image x (himg x hx).1 (himg x hx).2)
  have h4 : (anns.map serializeAnn).mapM parseAnn = some anns :=
    mapM_map_of_forall _ _ anns (fun x hx => roundtrip_ann x (hann x hx))
  have h5 : (cats.map serializeCategory).mapM parseCategory = some cats :=
    mapM_map_of_forall _ _ cats (fun x _ => roundtrip_category x)
  simp only [serializeDoc, parseCOCOData]
  rw [if_pos (by simp [cocoKeys])]
  rw [reqField_head parseInfo "info" _ _, h1]
  rw [reqField_skip (parseList parseLicense) "info" "licenses" _ _
      (by decide),
    reqField_head (parseList parseLicense) "licenses" _ _, parseList_arr, h2]
  rw [reqField_skip (parseList parseImage) "info" "images" _ _ (by decide),
    reqField_skip (parseList parseImage) "licenses" "images" _ _ (by decide),
    reqField_head (parseList parseImage) "images" _ _, parseList_arr, h3]
  rw [reqField_skip (parseList parseAnn) "info" "annotations" _ _
      (by decide),
    reqField_skip (parseList parseAnn) "licenses" "annotations" _ _
      (by decide),
    reqField_skip (parseList parseAnn) "images" "annotations" _ _
      (by decide),
    reqField_head (parseList parseAnn) "annotations" _ _, parseList_arr, h4]
  rw [reqField_skip (parseList parseCategory) "info" "categories" _ _
      (by decide),
    reqField_skip (parseList parseCategory) "licenses" "categories" _ _
      (by decide),
    reqField_skip (parseList parseCategory) "images" "categories" _ _
      (by decide),
    reqField_skip (parseList parseCategory) "annotations" "categories" _ _
      (by decide),
    reqField_head (parseList parseCategory) "categories" _ _, parseList_arr,
    h5]
  rfl

theorem parseInfo_extras_unknown (j : Json) (i : COCOInfo)
    (h : parseInfo j = some i) : ∀ p ∈ i.extras, p.1 ∉ infoKnownKeys := by
  cases j with
  | obj fields =>
      obtain ⟨_, _, _, _, _, _, hextras⟩ := parseInfo_inv fields i h
      intro p hp
      rw [hextras] at hp
      simpa using (List.mem_filter.mp hp).2
  | null => simp [parseInfo] at h
  | bool b => simp [parseInfo] at h
  | num q => simp [parseInfo] at h
  | str s => simp [parseInfo] at h
  | arr xs => simp [parseInfo] at h

/-- C8: validation is idempotent as a round trip — a document obtained from
validation, serialized back to schema-conformant JSON and re-validated,
yields exactly the same document, preserved info extras included. -/
theorem validate_roundtrip (j : Json) (d : COCOData)
    (h : validateCOCO j = .ok d) :
    validateCOCO (serializeDoc d) = .ok d := by
  have hp := validateCOCO_ok j d h
  obtain ⟨fields, rfl⟩ := parseCOCOData_obj j d hp
  obtain ⟨_, hinfo, _, himgs, hanns, _⟩ := parseCOCOData_inv fields d hp
  have hinfoext : ∀ p ∈ d.info.extras, p.1 ∉ infoKnownKeys := by
    unfold reqField at hinfo
    obtain ⟨ji, _, hpi⟩ := Option.bind_eq_some.mp hinfo
    exact parseInfo_extras_unknown ji d.info hpi
  have himgWF : ∀ img ∈ d.images, 0 < img.width ∧ 0 < img.height := by
    unfold reqField at himgs
    obtain ⟨jl, _, hpl⟩ := Option.bind_eq_some.mp himgs
    obtain ⟨xs, _, hmapM⟩ := parseList_inv parseImage _ _ hpl
    intro img hm
    obtain ⟨xj, _, hx⟩ := mapM_some_mem parseImage xs d.images hmapM img hm
    exact parseImage_some xj img hx
  have hannWF : ∀ a ∈ d.annotations, 0 ≤ a.area ∧ 0 ≤ a.bbox.w ∧
      0 ≤ a.bbox.h ∧ 0 ≤ a.iscrowd ∧ a.iscrowd ≤ 1 := by
    unfold reqField at hanns
    obtain ⟨jl, _, hpl⟩ := Option.bind_eq_some.mp hanns
    obtain ⟨xs, _, hmapM⟩ := parseList_inv parseAnn _ _ hpl
    intro a hm
    obtain ⟨xj, _, hx⟩ := mapM_some_mem parseAnn xs d.annotations hmapM a hm
    exact parseAnn_props xj a hx
  unfold validateCOCO
  rw [roundtrip_doc d hinfoext himgWF hannWF]

/-- Witness for C8: the concrete document validated from j0 (which carries
an extra info field) round-trips to itself. -/
theorem validate_roundtrip_witness :
    validateCOCO (serializeDoc doc0) = .ok doc0 :=
  validate_roundtrip j0 doc0 (by rfl)
